import Mathlib

/-!
My_ls: a shallow embedding of `my_ls.c`.

The program lists a directory (or, with `-d`, the path itself), either as bare
names or as long-format records.  Everything the C code obtains from the
operating system (`stat`, `getpwuid`, `getgrgid`, `ctime`, `opendir`/`readdir`,
`strerror(errno)`) is a field of `World`; the output buffer behind
`my_putstr`/`my_putchar`/`my_putnbr` is an explicit `Out` value threaded through
every function.  `ctime` may return NULL; the renderers index its result without a
test, so a run ends either by returning or by the process being killed (`Outcome`).

A C string is represented by the list of its characters before the terminating
NUL; reading at or past the end of the list yields the terminator (`cAt`).
-/

namespace MyLs

/-! ## Strings and the output buffer -/

/-- The characters of a C string, terminator excluded. -/
abbrev CString := List Char

/-- The append-only output buffer filled by the `my_put*` family. -/
abbrev Out := List Char

/-- How a run ends.  `returned val buf`: the function returned `val`, and the buffer holds
`buf`.  `crashed buf`: the process was killed by a read through a NULL pointer, at a
moment when the buffer held `buf`. -/
inductive Outcome (α : Type) where
  | returned (val : α) (buf : Out)
  | crashed (buf : Out)
deriving DecidableEq

/-- The buffer at the end of a run, however it ended. -/
def Outcome.buf {α : Type} : Outcome α → Out
  | .returned _ buf => buf
  | .crashed buf => buf

/-- Sequencing: what follows a call runs only if the call returned; a killed process
stays killed, its buffer as it was. -/
def Outcome.seq {α β : Type} (r : Outcome α) (next : α → Out → Outcome β) : Outcome β :=
  match r with
  | .returned val buf => next val buf
  | .crashed buf => .crashed buf

/-- The C expression `s[i]`: the terminator is read once the characters are exhausted. -/
def cAt (s : CString) (i : Nat) : Char := s.getD i '\x00'

/-- The C library function `strcmp`: difference of the first pair of characters that
differ, the end of a string reading as the terminator (code 0). -/
def strcmp : CString → CString → Int
  | [], [] => 0
  | [], b :: _ => 0 - (b.toNat : Int)
  | a :: _, [] => (a.toNat : Int)
  | a :: as, b :: bs => if a = b then strcmp as bs else (a.toNat : Int) - (b.toNat : Int)

/-- Modelled from the spec: `my_putstr` is declared in `include/my.h`, which is not part
of the sources; the spec describes the output sink as an append-only text buffer, so the
call appends the string to the buffer. -/
def my_putstr (s : CString) (out : Out) : Out := out ++ s

/-- Modelled from the spec: `my_putchar` is declared in `include/my.h`, which is not part
of the sources; it appends one character to the append-only buffer. -/
def my_putchar (c : Char) (out : Out) : Out := out ++ [c]

/-- Modelled from the spec: `my_putnbr` is declared in `include/my.h`, which is not part
of the sources; the spec renders link count and size as "decimal, no leading zeros". -/
def my_putnbr (n : Nat) (out : Out) : Out := out ++ Nat.toDigits 10 n

/-- Modelled from the spec: `flush_buffer` is declared in `include/my.h`, which is not
part of the sources; the buffer is "flushed by the surrounding program exactly once after
listing completes", so the flushed text is the whole buffer. -/
def flush_buffer (out : Out) : Out := out

/-! ## System data -/

/-- The fields of `struct stat` the program reads. -/
structure struct_stat where
  st_mode : Nat
  st_nlink : Nat
  st_uid : Nat
  st_gid : Nat
  st_size : Nat
  st_mtime : Int
deriving DecidableEq

/-- The field of `struct dirent` the program reads. -/
structure dirent where
  d_name : CString
deriving DecidableEq

/-- The field of `struct passwd` the program reads. -/
structure passwd where
  pw_name : CString
deriving DecidableEq

/-- The field of `struct group` the program reads. -/
structure group where
  gr_name : CString
deriving DecidableEq

/-- The operating system as the program sees it.  A failing `stat` or `opendir` yields the
`errno` value it sets; a successful `opendir` yields the entries `readdir` will return,
in order; `getpwuid`, `getgrgid` and `ctime` yield `none` for a NULL result (`ctime`
returns NULL for a time whose year it cannot represent). -/
structure World where
  stat : CString → Except Nat struct_stat
  getpwuid : Nat → Option passwd
  getgrgid : Nat → Option group
  ctime : Int → Option CString
  opendir : CString → Except Nat (List dirent)
  strerror : Nat → CString

/-! ## Mode bits (`<sys/stat.h>`) -/

def S_IFMT : Nat := 0o170000
def S_IFDIR : Nat := 0o040000
def S_IRUSR : Nat := 0o400
def S_IWUSR : Nat := 0o200
def S_IXUSR : Nat := 0o100
def S_IRGRP : Nat := 0o040
def S_IWGRP : Nat := 0o020
def S_IXGRP : Nat := 0o010
def S_IROTH : Nat := 0o004
def S_IWOTH : Nat := 0o002
def S_IXOTH : Nat := 0o001

/-- The macro `S_ISDIR(m)`. -/
def S_ISDIR (m : Nat) : Bool := (m &&& S_IFMT) == S_IFDIR

/-! ## The renderers -/

/-- The loop `for (int i = 4; i < 16 && time_str[i] != '\0'; i++) my_putchar(time_str[i]);`
started at index `i`.  The first argument bounds the number of iterations; the loop runs
at most `16 - i` times, so `16 - i` is always enough (`ctime_loop_fuel`). -/
def ctime_loop (time_str : CString) : Nat → Nat → Out → Out
  | 0, _, out => out
  | fuel + 1, i, out =>
    if i < 16 && cAt time_str i != '\x00' then
      ctime_loop time_str fuel (i + 1) (my_putchar (cAt time_str i) out)
    else out

/-- The function `ls_long`: one long-format record for a directory entry.  The result of
`ctime` is indexed without a NULL test: when it is NULL the read of `time_str[4]` kills
the process, after the size and its separator have been appended. -/
def ls_long (w : World) (entry : dirent) (out : Out) : Outcome Unit :=
  match w.stat entry.d_name with
  | .error _ =>
    let out := my_putstr "Error retrieving file info".toList out
    .returned () (my_putchar '\n' out)
  | .ok st =>
    let out := my_putstr (if S_ISDIR st.st_mode then "d".toList else "-".toList) out
    let out := my_putstr (if st.st_mode &&& S_IRUSR ≠ 0 then "r".toList else "-".toList) out
    let out := my_putstr (if st.st_mode &&& S_IWUSR ≠ 0 then "w".toList else "-".toList) out
    let out := my_putstr (if st.st_mode &&& S_IXUSR ≠ 0 then "x".toList else "-".toList) out
    let out := my_putstr (if st.st_mode &&& S_IRGRP ≠ 0 then "r".toList else "-".toList) out
    let out := my_putstr (if st.st_mode &&& S_IWGRP ≠ 0 then "w".toList else "-".toList) out
    let out := my_putstr (if st.st_mode &&& S_IXGRP ≠ 0 then "x".toList else "-".toList) out
    let out := my_putstr (if st.st_mode &&& S_IROTH ≠ 0 then "r".toList else "-".toList) out
    let out := my_putstr (if st.st_mode &&& S_IWOTH ≠ 0 then "w".toList else "-".toList) out
    let out := my_putstr (if st.st_mode &&& S_IXOTH ≠ 0 then "x".toList else "-".toList) out
    let out := my_putstr "  ".toList out
    let out := my_putnbr st.st_nlink out
    let out := my_putstr "  ".toList out
    let pw := w.getpwuid st.st_uid
    let out := my_putstr (match pw with | some p => p.pw_name | none => "unknown".toList) out
    let out := my_putstr "  ".toList out
    let gr := w.getgrgid st.st_gid
    let out := my_putstr (match gr with | some g => g.gr_name | none => "unknown".toList) out
    let out := my_putstr "  ".toList out
    let out := my_putnbr st.st_size out
    let out := my_putstr "  ".toList out
    match w.ctime st.st_mtime with
    | none => .crashed out
    | some time_str =>
      let out := ctime_loop time_str 12 4 out
      let out := my_putstr "  ".toList out
      let out := my_putstr entry.d_name out
      .returned () (my_putchar '\n' out)

/-- The function `ls_simple`: the entry name followed by three spaces. -/
def ls_simple (entry : dirent) (out : Out) : Out :=
  let out := my_putstr entry.d_name out
  my_putstr "   ".toList out

/-- The function `ls_long_dir`: one long-format record for the path itself.  As in
`ls_long`, a NULL result of `ctime` is indexed and kills the process. -/
def ls_long_dir (w : World) (dirname : CString) (out : Out) : Outcome Unit :=
  match w.stat dirname with
  | .error errno =>
    let out := my_putstr (w.strerror errno) out
    .returned () (my_putchar '\n' out)
  | .ok st =>
    let out := my_putstr (if S_ISDIR st.st_mode then "d".toList else "-".toList) out
    let out := my_putstr (if st.st_mode &&& S_IRUSR ≠ 0 then "r".toList else "-".toList) out
    let out := my_putstr (if st.st_mode &&& S_IWUSR ≠ 0 then "w".toList else "-".toList) out
    let out := my_putstr (if st.st_mode &&& S_IXUSR ≠ 0 then "x".toList else "-".toList) out
    let out := my_putstr (if st.st_mode &&& S_IRGRP ≠ 0 then "r".toList else "-".toList) out
    let out := my_putstr (if st.st_mode &&& S_IWGRP ≠ 0 then "w".toList else "-".toList) out
    let out := my_putstr (if st.st_mode &&& S_IXGRP ≠ 0 then "x".toList else "-".toList) out
    let out := my_putstr (if st.st_mode &&& S_IROTH ≠ 0 then "r".toList else "-".toList) out
    let out := my_putstr (if st.st_mode &&& S_IWOTH ≠ 0 then "w".toList else "-".toList) out
    let out := my_putstr (if st.st_mode &&& S_IXOTH ≠ 0 then "x".toList else "-".toList) out
    let out := my_putstr "  ".toList out
    let out := my_putnbr st.st_nlink out
    let out := my_putstr "  ".toList out
    let pw := w.getpwuid st.st_uid
    let out := my_putstr (match pw with | some p => p.pw_name | none => "unknown".toList) out
    let out := my_putstr "  ".toList out
    let gr := w.getgrgid st.st_gid
    let out := my_putstr (match gr with | some g => g.gr_name | none => "unknown".toList) out
    let out := my_putstr "  ".toList out
    let out := my_putnbr st.st_size out
    let out := my_putstr "  ".toList out
    match w.ctime st.st_mtime with
    | none => .crashed out
    | some time_str =>
      let out := ctime_loop time_str 12 4 out
      let out := my_putstr "  ".toList out
      let out := my_putstr dirname out
      .returned () (my_putchar '\n' out)

/-! ## Option parsing -/

/-- The four flags and the target path that `parse_options` writes through its pointers. -/
structure options where
  flag_a : Bool
  flag_A : Bool
  flag_l : Bool
  flag_d : Bool
  directory : CString
deriving DecidableEq

/-- The inner loop of `parse_options`, `for (int j = 1; argv[i][j] != '\0'; j++)`, over
the characters of the token from index 1 on. -/
def parse_flag_chars : List Char → options → options
  | [], o => o
  | c :: cs, o =>
    if c = 'a' then parse_flag_chars cs { o with flag_a := true }
    else if c = 'A' then parse_flag_chars cs { o with flag_A := true }
    else if c = 'l' then parse_flag_chars cs { o with flag_l := true }
    else if c = 'd' then parse_flag_chars cs { o with flag_d := true }
    else parse_flag_chars cs o

/-- The outer loop of `parse_options`, `for (int i = 1; i < argc; i++)`, over the
remaining tokens. -/
def parse_args : List CString → options → options
  | [], o => o
  | arg :: rest, o =>
    if cAt arg 0 = '-' then parse_args rest (parse_flag_chars (arg.drop 1) o)
    else parse_args rest { o with directory := arg }

/-- The function `parse_options`; `argv` holds `argc` tokens, `argv[0]` included. -/
def parse_options (argv : List CString) (o : options) : options :=
  parse_args (argv.drop 1) { o with directory := ".".toList }

/-! ## The listing -/

/-- The loop `while ((entry = readdir(dir)) != NULL)` of `ls` over the entries still to be
read.  `render` is the statement that ends the loop body (`ls_long(entry)` or
`ls_simple(entry)`, chosen by `flag_l`), acting on the state `σ`. -/
def ls_loop {σ : Type} (flag_a flag_A : Bool) (render : dirent → σ → σ) :
    List dirent → σ → σ
  | [], s => s
  | entry :: rest, s =>
    if !flag_a && !flag_A && cAt entry.d_name 0 == '.' then
      ls_loop flag_a flag_A render rest s
    else if flag_A && (strcmp entry.d_name ".".toList == 0
        || strcmp entry.d_name "..".toList == 0) then
      ls_loop flag_a flag_A render rest s
    else
      ls_loop flag_a flag_A render rest (render entry s)

/-- The locals of `ls` before `parse_options` runs: `flag_a = 0, flag_A = 0, flag_l = 0,
flag_d = 0`.  `directory` is declared without a value; `parse_options` assigns it before
anything reads it, so the value given here is never observed. -/
def ls_locals : options :=
  { flag_a := false, flag_A := false, flag_l := false, flag_d := false, directory := [] }

/-- The statement that ends the loop body of `ls`,
`if (flag_l) ls_long(entry); else ls_simple(entry);`, run on the state the loop has
reached: nothing runs any more once the process has been killed. -/
def render_entry (w : World) (flag_l : Bool) (entry : dirent) (s : Outcome Unit) :
    Outcome Unit :=
  s.seq (fun _ out => if flag_l then ls_long w entry out else .returned () (ls_simple entry out))

/-- The function `ls`: how the call ends, with its return value and the output buffer. -/
def ls (w : World) (argv : List CString) (out : Out) : Outcome Int :=
  let o := parse_options argv ls_locals
  if o.flag_d then
    if o.flag_l then (ls_long_dir w o.directory out).seq (fun _ out => .returned 0 out)
    else
      let out := my_putstr o.directory out
      .returned 0 (my_putchar '\n' out)
  else
    match w.opendir o.directory with
    | .error errno =>
      let out := my_putstr (w.strerror errno) out
      .returned (-1) (my_putchar '\n' out)
    | .ok entries =>
      (ls_loop o.flag_a o.flag_A (render_entry w o.flag_l) entries (.returned () out)).seq
        (fun _ out =>
          let out := if !o.flag_l then my_putchar '\n' out else out
          .returned 0 out)

/-- The function `main`: how the program ends.  When it returns, the value is the exit
status and the buffer is the flushed output; when `ls` was killed nothing after it runs,
so the buffer is never flushed. -/
def main (w : World) (argv : List CString) : Outcome Int :=
  (ls w argv []).seq (fun _ out => .returned 0 (flush_buffer out))

/-- The names that reach the render statement of the loop of `ls`, in the order they
reach it: the loop run with a renderer that records the entry name. -/
def rendered (flag_a flag_A : Bool) (names : List CString) : List CString :=
  ls_loop flag_a flag_A (fun entry acc => acc ++ [entry.d_name]) (names.map dirent.mk) []

/-! ## Sample systems -/

/-- The metadata of the sample file `notes.txt`: a regular file, permissions `rw-r--r--`,
one link, owner 1000, group 2000, 42 bytes, modified 2018-05-04 09:42:11 UTC. -/
def sample_stat : struct_stat :=
  { st_mode := 0o100644, st_nlink := 1, st_uid := 1000, st_gid := 2000, st_size := 42,
    st_mtime := 1525426931 }

/-- A sample system: the current directory holds `.`, `..`, `notes.txt` and `.hidden`;
only `notes.txt` can be examined with `stat`; user 1000 is `alice`, no group id resolves;
error 2 is `ENOENT`. -/
def sample_world : World :=
  { stat := fun p => if p = "notes.txt".toList then .ok sample_stat else .error 2
    getpwuid := fun u => if u = 1000 then some ⟨"alice".toList⟩ else none
    getgrgid := fun _ => none
    ctime := fun t =>
      if t = 1525426931 then some "Fri May  4 09:42:11 2018\n".toList
      else some "Thu Jan  1 00:00:00 1970\n".toList
    opendir := fun p =>
      if p = ".".toList then
        .ok [⟨".".toList⟩, ⟨"..".toList⟩, ⟨"notes.txt".toList⟩, ⟨".hidden".toList⟩]
      else .error 2
    strerror := fun e =>
      if e = 2 then "No such file or directory".toList else "Unknown error".toList }

/-- A sample system whose current directory holds one file, named `a`, line feed, `b`
(a file name may hold any character but `/` and NUL), with the metadata of the sample
file; no user or group id resolves. -/
def newline_world : World :=
  { stat := fun p => if p = "a\nb".toList then .ok sample_stat else .error 2
    getpwuid := fun _ => none
    getgrgid := fun _ => none
    ctime := fun t =>
      if t = 1525426931 then some "Fri May  4 09:42:11 2018\n".toList
      else some "Thu Jan  1 00:00:00 1970\n".toList
    opendir := fun p => if p = ".".toList then .ok [⟨"a\nb".toList⟩] else .error 2
    strerror := fun e =>
      if e = 2 then "No such file or directory".toList else "Unknown error".toList }

/-- A sample system with a subdirectory: the current directory and `sub` both enumerate
the one name `notes.txt`; `stat` knows `notes.txt` (42 bytes, the sample file) and
`sub/notes.txt` (7 bytes). -/
def two_dir_world : World :=
  { stat := fun p =>
      if p = "notes.txt".toList then .ok sample_stat
      else if p = "sub/notes.txt".toList then .ok { sample_stat with st_size := 7 }
      else .error 2
    getpwuid := fun u => if u = 1000 then some ⟨"alice".toList⟩ else none
    getgrgid := fun _ => none
    ctime := fun _ => some "Fri May  4 09:42:11 2018\n".toList
    opendir := fun p =>
      if p = ".".toList then .ok [⟨"notes.txt".toList⟩]
      else if p = "sub".toList then .ok [⟨"notes.txt".toList⟩]
      else .error 2
    strerror := fun e =>
      if e = 2 then "No such file or directory".toList else "Unknown error".toList }

/-- The metadata of the sample file `far`: as `notes.txt`, but modified at second
67768036191676800 after the epoch, in the year 2147485548, which `ctime` cannot
represent. -/
def far_stat : struct_stat :=
  { st_mode := 0o100644, st_nlink := 1, st_uid := 1000, st_gid := 2000, st_size := 42,
    st_mtime := 67768036191676800 }

/-- A sample system with a file from the far future: the current directory enumerates
`.hidden`, `far` and `notes.txt`; `stat` fails on `.hidden` and succeeds on `far` and
`notes.txt`; `ctime` returns NULL for the modification time of `far`. -/
def far_world : World :=
  { stat := fun p =>
      if p = "far".toList then .ok far_stat
      else if p = "notes.txt".toList then .ok sample_stat
      else .error 2
    getpwuid := fun u => if u = 1000 then some ⟨"alice".toList⟩ else none
    getgrgid := fun _ => none
    ctime := fun t =>
      if t = 1525426931 then some "Fri May  4 09:42:11 2018\n".toList
      else if t = 67768036191676800 then none
      else some "Thu Jan  1 00:00:00 1970\n".toList
    opendir := fun p =>
      if p = ".".toList then .ok [⟨".hidden".toList⟩, ⟨"far".toList⟩, ⟨"notes.txt".toList⟩]
      else .error 2
    strerror := fun e =>
      if e = 2 then "No such file or directory".toList else "Unknown error".toList }

/-! ## Shared lemmas -/

/-- Both guards of the loop body of `ls`, folded into one keep-predicate: the loop folds
the render statement over exactly the entries that pass neither `continue`. -/
theorem ls_loop_eq_foldl {σ : Type} (flag_a flag_A : Bool) (render : dirent → σ → σ)
    (entries : List dirent) (s : σ) :
    ls_loop flag_a flag_A render entries s =
      (entries.filter (fun e =>
        !(!flag_a && !flag_A && cAt e.d_name 0 == '.') &&
        !(flag_A && (strcmp e.d_name ".".toList == 0 || strcmp e.d_name "..".toList == 0)))).foldl
        (fun s e => render e s) s := by
  induction entries generalizing s with
  | nil => rfl
  | cons e rest ih =>
    by_cases h1 : (!flag_a && !flag_A && cAt e.d_name 0 == '.') = true
    · simp only [ls_loop, h1, if_true, List.filter_cons, Bool.not_true, Bool.false_and,
        Bool.false_eq_true, if_false]
      exact ih s
    · by_cases h2 : (flag_A && (strcmp e.d_name ".".toList == 0
          || strcmp e.d_name "..".toList == 0)) = true
      · simp only [ls_loop, h1, h2, if_true, if_false, List.filter_cons, Bool.not_true,
          Bool.and_false, Bool.false_eq_true]
        exact ih s
      · simp only [Bool.not_eq_true] at h1 h2
        simp only [ls_loop, h1, h2, if_false, List.filter_cons, Bool.not_false, Bool.and_self,
          if_true, List.foldl_cons, Bool.false_eq_true]
        exact ih (render e s)

/-- Folding the recording renderer appends the recorded names. -/
theorem foldl_record (es : List dirent) (acc : List CString) :
    es.foldl (fun acc e => acc ++ [e.d_name]) acc = acc ++ es.map dirent.d_name := by
  induction es generalizing acc with
  | nil => simp
  | cons e rest ih => simp [ih]

/-- The rendered names are the names that pass neither `continue` of the loop. -/
theorem rendered_eq_filter (flag_a flag_A : Bool) (names : List CString) :
    rendered flag_a flag_A names =
      names.filter (fun n =>
        !(!flag_a && !flag_A && cAt n 0 == '.') &&
        !(flag_A && (strcmp n ".".toList == 0 || strcmp n "..".toList == 0))) := by
  unfold rendered
  rw [ls_loop_eq_foldl, foldl_record, List.filter_map, List.map_map]
  simp [Function.comp_def]

/-- Reading index 0 of a C string yields `.` exactly when the string starts with `.`. -/
theorem cAt_zero_dot (n : CString) : (cAt n 0 == '.') = decide (n.head? = some '.') := by
  cases n with
  | nil => simp [cAt]
  | cons c cs =>
    simp only [cAt, List.getD_cons_zero, List.head?_cons, Option.some.injEq]
    rfl

/-- Distinct characters have distinct codes. -/
theorem char_toNat_inj {a b : Char} (h : a.toNat = b.toNat) : a = b := by
  rw [← Char.ofNat_toNat a, ← Char.ofNat_toNat b, h]

/-- On strings without embedded NUL, `strcmp` returns 0 exactly on equal strings. -/
theorem strcmp_eq_zero_iff (a b : CString) (ha : '\x00' ∉ a) (hb : '\x00' ∉ b) :
    strcmp a b = 0 ↔ a = b := by
  induction a generalizing b with
  | nil =>
    cases b with
    | nil => simp [strcmp]
    | cons y ys =>
      have hy : y ≠ '\x00' := fun h => hb (by simp [h])
      simp only [strcmp, reduceCtorEq, iff_false]
      intro h
      apply hy
      apply char_toNat_inj
      have : (y.toNat : Int) = 0 := by omega
      have h0 : ('\x00' : Char).toNat = 0 := by decide
      rw [h0]
      exact_mod_cast this
  | cons x xs ih =>
    cases b with
    | nil =>
      have hx : x ≠ '\x00' := fun h => ha (by simp [h])
      simp only [strcmp, reduceCtorEq, iff_false]
      intro h
      apply hx
      apply char_toNat_inj
      have h0 : ('\x00' : Char).toNat = 0 := by decide
      rw [h0]
      exact_mod_cast h
    | cons y ys =>
      have hxs : '\x00' ∉ xs := fun h => ha (List.mem_cons_of_mem _ h)
      have hys : '\x00' ∉ ys := fun h => hb (List.mem_cons_of_mem _ h)
      by_cases hxy : x = y
      · simp only [strcmp, hxy, if_true, List.cons.injEq, true_and]
        exact ih ys hxs hys
      · simp only [strcmp, hxy, if_false, List.cons.injEq, false_and, iff_false]
        intro h
        apply hxy
        apply char_toNat_inj
        have : (x.toNat : Int) = (y.toNat : Int) := by omega
        exact_mod_cast this

/-- The loop over the timestamp appends to the buffer it is given. -/
theorem ctime_loop_append (ts : CString) (fuel i : Nat) (out : Out) :
    ctime_loop ts fuel i out = out ++ ctime_loop ts fuel i [] := by
  induction fuel generalizing i out with
  | zero => simp [ctime_loop]
  | succ f ih =>
    by_cases h : (i < 16 && cAt ts i != '\x00') = true
    · simp only [ctime_loop, h, if_true, my_putchar]
      rw [ih (i + 1) (out ++ [cAt ts i]), ih (i + 1) ([] ++ [cAt ts i])]
      simp
    · simp [ctime_loop, h]

/-- The iteration bound of `ctime_loop` is never what stops the loop: any bound of at
least `16 - i` gives the result of the bound `16 - i`. -/
theorem ctime_loop_fuel (ts : CString) (fuel i : Nat) (out : Out) (h : 16 - i ≤ fuel) :
    ctime_loop ts fuel i out = ctime_loop ts (16 - i) i out := by
  induction fuel generalizing i out with
  | zero =>
    have : 16 - i = 0 := by omega
    rw [this]
  | succ f ih =>
    by_cases hi : i < 16
    · obtain ⟨k, hk⟩ : ∃ k, 16 - i = k + 1 := ⟨15 - i, by omega⟩
      rw [hk]
      by_cases hc : (i < 16 && cAt ts i != '\x00') = true
      · simp only [ctime_loop, hc, if_true]
        rw [ih (i + 1) _ (by omega)]
        have : 16 - (i + 1) = k := by omega
        rw [this]
      · simp [ctime_loop, hc]
    · have h0 : 16 - i = 0 := by omega
      have hc : ¬ (i < 16 && cAt ts i != '\x00') = true := by simp [hi]
      rw [h0]
      simp [ctime_loop, hc]

/-- Reading index `i` of a C string reads the head of what is left after `i` characters. -/
theorem cAt_eq_headD_drop (ts : CString) (i : Nat) : cAt ts i = (ts.drop i).headD '\x00' := by
  induction ts generalizing i with
  | nil => simp [cAt]
  | cons c cs ih =>
    cases i with
    | zero => simp [cAt]
    | succ j =>
      have := ih j
      simp only [cAt, List.getD_cons_succ, List.drop_succ_cons] at this ⊢
      exact this

/-- What the loop over the timestamp emits from index `i` on: the characters at the
indices `i`, `i + 1`, ... below `i + fuel` and below 16, up to the first NUL. -/
theorem ctime_loop_eq (ts : CString) (fuel i : Nat) (h : i + fuel ≤ 16) :
    ctime_loop ts fuel i [] = ((ts.drop i).take fuel).takeWhile (fun c => c != '\x00') := by
  induction fuel generalizing i with
  | zero => simp [ctime_loop]
  | succ f ih =>
    have hi : i < 16 := by omega
    have hget := cAt_eq_headD_drop ts i
    cases hd : ts.drop i with
    | nil =>
      rw [hd] at hget
      simp [ctime_loop, hget]
    | cons c rest =>
      rw [hd] at hget
      simp only [List.headD_cons] at hget
      have hrest : ts.drop (i + 1) = rest := by
        rw [← List.drop_drop, hd]
        rfl
      by_cases hc : c = '\x00'
      · simp [ctime_loop, hget, hc]
      · have hb : (i < 16 && cAt ts i != '\x00') = true := by simp [hi, hget, hc]
        simp only [ctime_loop, hb, if_true, my_putchar, List.nil_append]
        rw [ctime_loop_append, ih (i + 1) (by omega), hrest, hget]
        simp [List.take_succ_cons, List.takeWhile_cons, hc]

/-- A one-character string chosen by a test is the choice of its character. -/
theorem ite_singleton (c : Prop) [Decidable c] (a b : Char) :
    (if c then [a] else [b]) = [if c then a else b] := by
  split <;> rfl

/-- The record `ls_long` appends when `stat` succeeds and `ctime` returns a string, as one
concatenation. -/
theorem ls_long_ok (w : World) (entry : dirent) (st : struct_stat) (ts : CString) (out : Out)
    (h : w.stat entry.d_name = .ok st) (hc : w.ctime st.st_mtime = some ts) :
    ls_long w entry out = .returned () (out ++
      ([if S_ISDIR st.st_mode then 'd' else '-',
        if st.st_mode &&& S_IRUSR ≠ 0 then 'r' else '-',
        if st.st_mode &&& S_IWUSR ≠ 0 then 'w' else '-',
        if st.st_mode &&& S_IXUSR ≠ 0 then 'x' else '-',
        if st.st_mode &&& S_IRGRP ≠ 0 then 'r' else '-',
        if st.st_mode &&& S_IWGRP ≠ 0 then 'w' else '-',
        if st.st_mode &&& S_IXGRP ≠ 0 then 'x' else '-',
        if st.st_mode &&& S_IROTH ≠ 0 then 'r' else '-',
        if st.st_mode &&& S_IWOTH ≠ 0 then 'w' else '-',
        if st.st_mode &&& S_IXOTH ≠ 0 then 'x' else '-'] ++ [' ', ' ']
      ++ Nat.toDigits 10 st.st_nlink ++ [' ', ' ']
      ++ (match w.getpwuid st.st_uid with
          | some p => p.pw_name
          | none => ['u', 'n', 'k', 'n', 'o', 'w', 'n']) ++ [' ', ' ']
      ++ (match w.getgrgid st.st_gid with
          | some g => g.gr_name
          | none => ['u', 'n', 'k', 'n', 'o', 'w', 'n']) ++ [' ', ' ']
      ++ Nat.toDigits 10 st.st_size ++ [' ', ' ']
      ++ ctime_loop ts 12 4 [] ++ [' ', ' ']
      ++ entry.d_name ++ ['\n'])) := by
  unfold ls_long
  rw [h]
  simp only [hc]
  rw [ctime_loop_append]
  simp only [my_putstr, my_putchar, my_putnbr]
  have hd : "d".toList = ['d'] := rfl
  have hm : "-".toList = ['-'] := rfl
  have hr : "r".toList = ['r'] := rfl
  have hw : "w".toList = ['w'] := rfl
  have hx : "x".toList = ['x'] := rfl
  have hs : "  ".toList = [' ', ' '] := rfl
  have hu : "unknown".toList = ['u', 'n', 'k', 'n', 'o', 'w', 'n'] := rfl
  simp only [hd, hm, hr, hw, hx, hs, hu, ite_singleton, List.append_assoc, List.cons_append,
    List.nil_append]

/-- What `ls_long` has appended when `stat` succeeds and `ctime` returns NULL: the fields up
to the size and its separator; the process is killed there. -/
theorem ls_long_crash (w : World) (entry : dirent) (st : struct_stat) (out : Out)
    (h : w.stat entry.d_name = .ok st) (hc : w.ctime st.st_mtime = none) :
    ls_long w entry out = .crashed (out ++
      ([if S_ISDIR st.st_mode then 'd' else '-',
        if st.st_mode &&& S_IRUSR ≠ 0 then 'r' else '-',
        if st.st_mode &&& S_IWUSR ≠ 0 then 'w' else '-',
        if st.st_mode &&& S_IXUSR ≠ 0 then 'x' else '-',
        if st.st_mode &&& S_IRGRP ≠ 0 then 'r' else '-',
        if st.st_mode &&& S_IWGRP ≠ 0 then 'w' else '-',
        if st.st_mode &&& S_IXGRP ≠ 0 then 'x' else '-',
        if st.st_mode &&& S_IROTH ≠ 0 then 'r' else '-',
        if st.st_mode &&& S_IWOTH ≠ 0 then 'w' else '-',
        if st.st_mode &&& S_IXOTH ≠ 0 then 'x' else '-'] ++ [' ', ' ']
      ++ Nat.toDigits 10 st.st_nlink ++ [' ', ' ']
      ++ (match w.getpwuid st.st_uid with
          | some p => p.pw_name
          | none => ['u', 'n', 'k', 'n', 'o', 'w', 'n']) ++ [' ', ' ']
      ++ (match w.getgrgid st.st_gid with
          | some g => g.gr_name
          | none => ['u', 'n', 'k', 'n', 'o', 'w', 'n']) ++ [' ', ' ']
      ++ Nat.toDigits 10 st.st_size ++ [' ', ' '])) := by
  unfold ls_long
  rw [h]
  simp only [hc]
  simp only [my_putstr, my_putchar, my_putnbr]
  have hd : "d".toList = ['d'] := rfl
  have hm : "-".toList = ['-'] := rfl
  have hr : "r".toList = ['r'] := rfl
  have hw : "w".toList = ['w'] := rfl
  have hx : "x".toList = ['x'] := rfl
  have hs : "  ".toList = [' ', ' '] := rfl
  have hu : "unknown".toList = ['u', 'n', 'k', 'n', 'o', 'w', 'n'] := rfl
  simp only [hd, hm, hr, hw, hx, hs, hu, ite_singleton, List.append_assoc, List.cons_append,
    List.nil_append]

/-- The record `ls_long_dir` appends when `stat` succeeds and `ctime` returns a string, as
one concatenation. -/
theorem ls_long_dir_ok (w : World) (dirname : CString) (st : struct_stat) (ts : CString)
    (out : Out) (h : w.stat dirname = .ok st) (hc : w.ctime st.st_mtime = some ts) :
    ls_long_dir w dirname out = .returned () (out ++
      ([if S_ISDIR st.st_mode then 'd' else '-',
        if st.st_mode &&& S_IRUSR ≠ 0 then 'r' else '-',
        if st.st_mode &&& S_IWUSR ≠ 0 then 'w' else '-',
        if st.st_mode &&& S_IXUSR ≠ 0 then 'x' else '-',
        if st.st_mode &&& S_IRGRP ≠ 0 then 'r' else '-',
        if st.st_mode &&& S_IWGRP ≠ 0 then 'w' else '-',
        if st.st_mode &&& S_IXGRP ≠ 0 then 'x' else '-',
        if st.st_mode &&& S_IROTH ≠ 0 then 'r' else '-',
        if st.st_mode &&& S_IWOTH ≠ 0 then 'w' else '-',
        if st.st_mode &&& S_IXOTH ≠ 0 then 'x' else '-'] ++ [' ', ' ']
      ++ Nat.toDigits 10 st.st_nlink ++ [' ', ' ']
      ++ (match w.getpwuid st.st_uid with
          | some p => p.pw_name
          | none => ['u', 'n', 'k', 'n', 'o', 'w', 'n']) ++ [' ', ' ']
      ++ (match w.getgrgid st.st_gid with
          | some g => g.gr_name
          | none => ['u', 'n', 'k', 'n', 'o', 'w', 'n']) ++ [' ', ' ']
      ++ Nat.toDigits 10 st.st_size ++ [' ', ' ']
      ++ ctime_loop ts 12 4 [] ++ [' ', ' ']
      ++ dirname ++ ['\n'])) := by
  unfold ls_long_dir
  rw [h]
  simp only [hc]
  rw [ctime_loop_append]
  simp only [my_putstr, my_putchar, my_putnbr]
  have hd : "d".toList = ['d'] := rfl
  have hm : "-".toList = ['-'] := rfl
  have hr : "r".toList = ['r'] := rfl
  have hw : "w".toList = ['w'] := rfl
  have hx : "x".toList = ['x'] := rfl
  have hs : "  ".toList = [' ', ' '] := rfl
  have hu : "unknown".toList = ['u', 'n', 'k', 'n', 'o', 'w', 'n'] := rfl
  simp only [hd, hm, hr, hw, hx, hs, hu, ite_singleton, List.append_assoc, List.cons_append,
    List.nil_append]

/-- What `ls_long_dir` has appended when `stat` succeeds and `ctime` returns NULL: the
fields up to the size and its separator; the process is killed there. -/
theorem ls_long_dir_crash (w : World) (dirname : CString) (st : struct_stat) (out : Out)
    (h : w.stat dirname = .ok st) (hc : w.ctime st.st_mtime = none) :
    ls_long_dir w dirname out = .crashed (out ++
      ([if S_ISDIR st.st_mode then 'd' else '-',
        if st.st_mode &&& S_IRUSR ≠ 0 then 'r' else '-',
        if st.st_mode &&& S_IWUSR ≠ 0 then 'w' else '-',
        if st.st_mode &&& S_IXUSR ≠ 0 then 'x' else '-',
        if st.st_mode &&& S_IRGRP ≠ 0 then 'r' else '-',
        if st.st_mode &&& S_IWGRP ≠ 0 then 'w' else '-',
        if st.st_mode &&& S_IXGRP ≠ 0 then 'x' else '-',
        if st.st_mode &&& S_IROTH ≠ 0 then 'r' else '-',
        if st.st_mode &&& S_IWOTH ≠ 0 then 'w' else '-',
        if st.st_mode &&& S_IXOTH ≠ 0 then 'x' else '-'] ++ [' ', ' ']
      ++ Nat.toDigits 10 st.st_nlink ++ [' ', ' ']
      ++ (match w.getpwuid st.st_uid with
          | some p => p.pw_name
          | none => ['u', 'n', 'k', 'n', 'o', 'w', 'n']) ++ [' ', ' ']
      ++ (match w.getgrgid st.st_gid with
          | some g => g.gr_name
          | none => ['u', 'n', 'k', 'n', 'o', 'w', 'n']) ++ [' ', ' ']
      ++ Nat.toDigits 10 st.st_size ++ [' ', ' '])) := by
  unfold ls_long_dir
  rw [h]
  simp only [hc]
  simp only [my_putstr, my_putchar, my_putnbr]
  have hd : "d".toList = ['d'] := rfl
  have hm : "-".toList = ['-'] := rfl
  have hr : "r".toList = ['r'] := rfl
  have hw : "w".toList = ['w'] := rfl
  have hx : "x".toList = ['x'] := rfl
  have hs : "  ".toList = [' ', ' '] := rfl
  have hu : "unknown".toList = ['u', 'n', 'k', 'n', 'o', 'w', 'n'] := rfl
  simp only [hd, hm, hr, hw, hx, hs, hu, ite_singleton, List.append_assoc, List.cons_append,
    List.nil_append]

/-- Regrouping of a buffer, a field, a separator and what follows. -/
theorem append_regroup (out f sep r : List Char) :
    out ++ (f ++ (sep ++ r)) = out ++ f ++ sep ++ r := by
  simp only [List.append_assoc]

/-- Regrouping of a buffer, the leading fields, and the size, timestamp and name fields. -/
theorem record_tail_regroup (out pre size ts name : List Char) :
    out ++ (pre ++ size ++ [' ', ' '] ++ ts ++ [' ', ' '] ++ name ++ ['\n'])
      = out ++ pre ++ size ++ [' ', ' '] ++ ts ++ [' ', ' '] ++ name ++ ['\n'] := by
  simp only [List.append_assoc]

/-- Testing a mode against a one-bit mask tests that bit. -/
theorem land_two_pow_ne_zero (m k : Nat) : m &&& 2 ^ k ≠ 0 ↔ m.testBit k = true := by
  rw [Nat.and_two_pow]
  cases m.testBit k <;> simp

/-- Masking reads only the bits of the mask. -/
theorem land_congr_of_testBit (m m' c : Nat)
    (h : ∀ i, c.testBit i = true → m.testBit i = m'.testBit i) : m &&& c = m' &&& c := by
  apply Nat.eq_of_testBit_eq
  intro i
  rw [Nat.testBit_and, Nat.testBit_and]
  cases hc : c.testBit i with
  | false => simp
  | true => rw [h i hc]

/-- No decimal digit is a line feed. -/
theorem digitChar_ne_newline : ∀ d, d < 10 → Nat.digitChar d ≠ '\n' := by
  decide

/-- The digit loop adds no line feed to the digits it is given. -/
theorem toDigitsCore_no_newline (fuel n : Nat) (ds : List Char) (h : '\n' ∉ ds) :
    '\n' ∉ Nat.toDigitsCore 10 fuel n ds := by
  induction fuel generalizing n ds with
  | zero => simpa [Nat.toDigitsCore] using h
  | succ f ih =>
    have hcons : '\n' ∉ Nat.digitChar (n % 10) :: ds := by
      intro hmem
      rcases List.mem_cons.mp hmem with h1 | h1
      · exact digitChar_ne_newline _ (Nat.mod_lt _ (by decide)) h1.symm
      · exact h h1
    unfold Nat.toDigitsCore
    simp only
    split
    · exact hcons
    · exact ih _ _ hcons

/-- The decimal rendering of a number holds no line feed. -/
theorem toDigits_no_newline (n : Nat) : '\n' ∉ Nat.toDigits 10 n :=
  toDigitsCore_no_newline _ _ _ (by simp)

/-- Folding the render statement without `-l` over entries appends each name followed by
three spaces; the process stays alive. -/
theorem foldl_render_simple (w : World) (es : List dirent) (out : Out) :
    es.foldl (fun s e => render_entry w false e s) (.returned () out)
      = .returned () (out ++ (es.map dirent.d_name).flatMap (fun n => n ++ [' ', ' ', ' '])) := by
  induction es generalizing out with
  | nil => simp
  | cons e rest ih =>
    simp only [List.foldl_cons, List.map_cons, List.flatMap_cons]
    have hstep : render_entry w false e (.returned () out)
        = .returned () (out ++ (e.d_name ++ [' ', ' ', ' '])) := by
      simp only [render_entry, Outcome.seq, Bool.false_eq_true, if_false, ls_simple, my_putstr,
        List.append_assoc]
      rfl
    rw [hstep, ih]
    simp only [List.append_assoc]

/-- The minimal listing: with `-l` and `-d` off and a directory that opens, `ls` returns 0
and appends each rendered name followed by three spaces, then one line feed. -/
theorem ls_simple_listing (w : World) (argv : List CString) (o : options)
    (entries : List dirent) (out : Out)
    (hparse : parse_options argv ls_locals = o)
    (hl : o.flag_l = false) (hd : o.flag_d = false)
    (hopen : w.opendir o.directory = .ok entries) :
    ls w argv out = .returned 0 (out
      ++ (rendered o.flag_a o.flag_A (entries.map dirent.d_name)).flatMap
          (fun n => n ++ [' ', ' ', ' '])
      ++ ['\n']) := by
  unfold ls
  simp only [hparse, hl, hd, hopen, Bool.false_eq_true, if_false, Bool.not_false, if_true,
    my_putchar]
  rw [ls_loop_eq_foldl, foldl_render_simple, rendered_eq_filter, List.filter_map]
  rfl

/-! ## The visibility filter -/

/-- C1: with neither `-a` nor `-A`, the names the loop of `ls` renders are exactly the
names whose first character is not `.`, in their original order (whatever the render
statement does), so no name starting with `.` is rendered; of `.`, `..`, `afile`,
`.hidden` only `afile` is rendered. -/
theorem C1_default_hides_dot_names (names : List CString) :
    rendered false false names = names.filter (fun n => n.head? ≠ some '.')
    ∧ (∀ n ∈ rendered false false names, n.head? ≠ some '.')
    ∧ (∀ (σ : Type) (render : dirent → σ → σ) (s : σ),
        ls_loop false false render (names.map dirent.mk) s =
          ((names.filter (fun n => n.head? ≠ some '.')).map dirent.mk).foldl
            (fun s e => render e s) s)
    ∧ rendered false false [".".toList, "..".toList, "afile".toList, ".hidden".toList]
        = ["afile".toList] := by
  have hfilter : rendered false false names = names.filter (fun n => n.head? ≠ some '.') := by
    rw [rendered_eq_filter]
    apply List.filter_congr
    intro n _
    simp [cAt_zero_dot]
  refine ⟨hfilter, ?_, ?_, by decide⟩
  · intro n hn
    rw [hfilter, List.mem_filter] at hn
    simpa using hn.2
  · intro σ render s
    rw [ls_loop_eq_foldl, List.filter_map]
    congr 2
    apply List.filter_congr
    intro n _
    simp [cAt_zero_dot]

/-- C2: with `-A`, whatever `-a` is, the names the loop of `ls` renders are exactly the
names different from `.` and `..`, in their original order (whatever the render statement
does); names are C strings, so they hold no NUL character. -/
theorem C2_almost_all_drops_dot_and_dotdot (flag_a : Bool) (names : List CString)
    (hnul : ∀ n ∈ names, '\x00' ∉ n) :
    rendered flag_a true names
        = names.filter (fun n => n ≠ ".".toList ∧ n ≠ "..".toList)
    ∧ (∀ n ∈ names, n ∈ rendered flag_a true names ↔ (n ≠ ".".toList ∧ n ≠ "..".toList))
    ∧ (∀ (σ : Type) (render : dirent → σ → σ) (s : σ),
        ls_loop flag_a true render (names.map dirent.mk) s =
          ((names.filter (fun n => n ≠ ".".toList ∧ n ≠ "..".toList)).map dirent.mk).foldl
            (fun s e => render e s) s) := by
  have hkeep : ∀ n ∈ names,
      (!(!flag_a && !true && cAt n 0 == '.') &&
        !(true && (strcmp n ".".toList == 0 || strcmp n "..".toList == 0)))
      = decide (n ≠ ".".toList ∧ n ≠ "..".toList) := by
    intro n hn
    have h1 := strcmp_eq_zero_iff n ".".toList (hnul n hn) (by decide)
    have h2 := strcmp_eq_zero_iff n "..".toList (hnul n hn) (by decide)
    have b1 : (strcmp n ".".toList == 0) = decide (n = ".".toList) := by
      rw [Bool.eq_iff_iff]
      simp only [beq_iff_eq, decide_eq_true_eq]
      exact h1
    have b2 : (strcmp n "..".toList == 0) = decide (n = "..".toList) := by
      rw [Bool.eq_iff_iff]
      simp only [beq_iff_eq, decide_eq_true_eq]
      exact h2
    rw [b1, b2]
    simp
  have hfilter : rendered flag_a true names
      = names.filter (fun n => n ≠ ".".toList ∧ n ≠ "..".toList) := by
    rw [rendered_eq_filter]
    exact List.filter_congr hkeep
  refine ⟨hfilter, ?_, ?_⟩
  · intro n hn
    rw [hfilter, List.mem_filter]
    simp [hn]
  · intro σ render s
    rw [ls_loop_eq_foldl, List.filter_map]
    congr 2
    exact List.filter_congr hkeep

/-- The scenario of C2: of `.`, `..`, `afile`, `.hidden`, `...`, `.a`, none of which
holds a NUL, the loop run with `-A` renders all but `.` and `..`; of `.`, `..`, `afile`,
`.hidden` it renders `afile` and `.hidden`, with `-a` as without. -/
theorem C2_almost_all_witness :
    (∀ n ∈ [".".toList, "..".toList, "afile".toList, ".hidden".toList, "...".toList,
        ".a".toList], '\x00' ∉ n)
    ∧ rendered false true [".".toList, "..".toList, "afile".toList, ".hidden".toList,
        "...".toList, ".a".toList]
      = ["afile".toList, ".hidden".toList, "...".toList, ".a".toList]
    ∧ rendered false true [".".toList, "..".toList, "afile".toList, ".hidden".toList]
      = ["afile".toList, ".hidden".toList]
    ∧ rendered true true [".".toList, "..".toList, "afile".toList, ".hidden".toList]
      = ["afile".toList, ".hidden".toList] :=
  ⟨by decide,
   (C2_almost_all_drops_dot_and_dotdot false
      [".".toList, "..".toList, "afile".toList, ".hidden".toList, "...".toList, ".a".toList]
      (by decide)).1.trans (by decide),
   by decide, by decide⟩

/-- C3: with `-a` and without `-A` the loop of `ls` renders every name, unmodified and in
the original order, `.` and `..` included (whatever the render statement does). -/
theorem C3_all_is_identity (names : List CString) :
    rendered true false names = names
    ∧ (∀ (σ : Type) (render : dirent → σ → σ) (s : σ),
        ls_loop true false render (names.map dirent.mk) s =
          (names.map dirent.mk).foldl (fun s e => render e s) s)
    ∧ rendered true false [".".toList, "..".toList, "afile".toList, ".hidden".toList]
        = [".".toList, "..".toList, "afile".toList, ".hidden".toList] := by
  refine ⟨?_, ?_, by decide⟩
  · rw [rendered_eq_filter]
    simp
  · intro σ render s
    rw [ls_loop_eq_foldl]
    simp

/-- C4: with both `-a` and `-A` the loop of `ls` renders the same names as with `-A`
alone, and produces the same result for every render statement. -/
theorem C4_almost_all_wins_tie (names : List CString) :
    rendered true true names = rendered false true names
    ∧ (∀ (σ : Type) (render : dirent → σ → σ) (entries : List dirent) (s : σ),
        ls_loop true true render entries s = ls_loop false true render entries s) := by
  refine ⟨?_, ?_⟩
  · rw [rendered_eq_filter, rendered_eq_filter]
    simp
  · intro σ render entries s
    rw [ls_loop_eq_foldl, ls_loop_eq_foldl]
    simp

/-- C5: for each combination of the two visibility flags, filtering the already filtered
names again with the same flags changes nothing. -/
theorem C5_filter_idempotent (flag_a flag_A : Bool) (names : List CString) :
    rendered flag_a flag_A (rendered flag_a flag_A names) = rendered flag_a flag_A names := by
  rw [rendered_eq_filter flag_a flag_A names, rendered_eq_filter, List.filter_filter]
  apply List.filter_congr
  intro n _
  simp

/-! ## The long-format record -/

/-- C6: when `stat` succeeds, the first field `ls_long` and `ls_long_dir` append is the
same 10 characters, followed by two spaces: `d` exactly for a directory, then `r`, `w`,
`x` for owner, group and other, each letter present exactly when its mode bit (8 down
to 0) is set and `-` otherwise; a mode that differs only in the setuid, setgid and sticky
bits (11, 10, 9) yields the same 10 characters.  The field is appended before `ctime` is
called, so this holds of the buffer however the call ends. -/
theorem C6_type_permission_field (w : World) (name : CString) (st : struct_stat) (out : Out)
    (hstat : w.stat name = .ok st) :
    ∃ f : List Char, f.length = 10
      ∧ (∃ rest, (ls_long w ⟨name⟩ out).buf = out ++ f ++ [' ', ' '] ++ rest)
      ∧ (∃ rest, (ls_long_dir w name out).buf = out ++ f ++ [' ', ' '] ++ rest)
      ∧ f = [if S_ISDIR st.st_mode then 'd' else '-',
             if st.st_mode.testBit 8 then 'r' else '-',
             if st.st_mode.testBit 7 then 'w' else '-',
             if st.st_mode.testBit 6 then 'x' else '-',
             if st.st_mode.testBit 5 then 'r' else '-',
             if st.st_mode.testBit 4 then 'w' else '-',
             if st.st_mode.testBit 3 then 'x' else '-',
             if st.st_mode.testBit 2 then 'r' else '-',
             if st.st_mode.testBit 1 then 'w' else '-',
             if st.st_mode.testBit 0 then 'x' else '-']
      ∧ (∀ (w' : World) (st' : struct_stat), w'.stat name = .ok st' →
          (∀ i, i ≠ 9 → i ≠ 10 → i ≠ 11 → st'.st_mode.testBit i = st.st_mode.testBit i) →
          (∃ rest, (ls_long w' ⟨name⟩ out).buf = out ++ f ++ [' ', ' '] ++ rest)
          ∧ (∃ rest, (ls_long_dir w' name out).buf = out ++ f ++ [' ', ' '] ++ rest)) := by
  have bits : ∀ m : Nat,
      [if S_ISDIR m then 'd' else '-',
       if m &&& S_IRUSR ≠ 0 then 'r' else '-',
       if m &&& S_IWUSR ≠ 0 then 'w' else '-',
       if m &&& S_IXUSR ≠ 0 then 'x' else '-',
       if m &&& S_IRGRP ≠ 0 then 'r' else '-',
       if m &&& S_IWGRP ≠ 0 then 'w' else '-',
       if m &&& S_IXGRP ≠ 0 then 'x' else '-',
       if m &&& S_IROTH ≠ 0 then 'r' else '-',
       if m &&& S_IWOTH ≠ 0 then 'w' else '-',
       if m &&& S_IXOTH ≠ 0 then 'x' else '-']
      = [if S_ISDIR m then 'd' else '-',
         if m.testBit 8 then 'r' else '-',
         if m.testBit 7 then 'w' else '-',
         if m.testBit 6 then 'x' else '-',
         if m.testBit 5 then 'r' else '-',
         if m.testBit 4 then 'w' else '-',
         if m.testBit 3 then 'x' else '-',
         if m.testBit 2 then 'r' else '-',
         if m.testBit 1 then 'w' else '-',
         if m.testBit 0 then 'x' else '-'] := by
    intro m
    have h8 : ¬ m &&& 256 = 0 ↔ m.testBit 8 = true := land_two_pow_ne_zero m 8
    have h7 : ¬ m &&& 128 = 0 ↔ m.testBit 7 = true := land_two_pow_ne_zero m 7
    have h6 : ¬ m &&& 64 = 0 ↔ m.testBit 6 = true := land_two_pow_ne_zero m 6
    have h5 : ¬ m &&& 32 = 0 ↔ m.testBit 5 = true := land_two_pow_ne_zero m 5
    have h4 : ¬ m &&& 16 = 0 ↔ m.testBit 4 = true := land_two_pow_ne_zero m 4
    have h3 : ¬ m &&& 8 = 0 ↔ m.testBit 3 = true := land_two_pow_ne_zero m 3
    have h2 : ¬ m &&& 4 = 0 ↔ m.testBit 2 = true := land_two_pow_ne_zero m 2
    have h1 : ¬ m &&& 2 = 0 ↔ m.testBit 1 = true := land_two_pow_ne_zero m 1
    have h0 : ¬ m &&& 1 = 0 ↔ m.testBit 0 = true := land_two_pow_ne_zero m 0
    have e8 : S_IRUSR = 256 := by decide
    have e7 : S_IWUSR = 128 := by decide
    have e6 : S_IXUSR = 64 := by decide
    have e5 : S_IRGRP = 32 := by decide
    have e4 : S_IWGRP = 16 := by decide
    have e3 : S_IXGRP = 8 := by decide
    have e2 : S_IROTH = 4 := by decide
    have e1 : S_IWOTH = 2 := by decide
    have e0 : S_IXOTH = 1 := by decide
    simp only [e8, e7, e6, e5, e4, e3, e2, e1, e0, ne_eq, h8, h7, h6, h5, h4, h3, h2, h1, h0]
  have same : ∀ m m' : Nat,
      (∀ i, i ≠ 9 → i ≠ 10 → i ≠ 11 → m'.testBit i = m.testBit i) →
      [if S_ISDIR m' then 'd' else '-',
       if m'.testBit 8 then 'r' else '-',
       if m'.testBit 7 then 'w' else '-',
       if m'.testBit 6 then 'x' else '-',
       if m'.testBit 5 then 'r' else '-',
       if m'.testBit 4 then 'w' else '-',
       if m'.testBit 3 then 'x' else '-',
       if m'.testBit 2 then 'r' else '-',
       if m'.testBit 1 then 'w' else '-',
       if m'.testBit 0 then 'x' else '-']
      = [if S_ISDIR m then 'd' else '-',
         if m.testBit 8 then 'r' else '-',
         if m.testBit 7 then 'w' else '-',
         if m.testBit 6 then 'x' else '-',
         if m.testBit 5 then 'r' else '-',
         if m.testBit 4 then 'w' else '-',
         if m.testBit 3 then 'x' else '-',
         if m.testBit 2 then 'r' else '-',
         if m.testBit 1 then 'w' else '-',
         if m.testBit 0 then 'x' else '-'] := by
    intro m m' h
    have hdir : S_ISDIR m' = S_ISDIR m := by
      unfold S_ISDIR
      rw [land_congr_of_testBit m' m S_IFMT]
      intro i hi
      apply h i
      · rintro rfl
        revert hi
        decide
      · rintro rfl
        revert hi
        decide
      · rintro rfl
        revert hi
        decide
    rw [hdir, h 8 (by decide) (by decide) (by decide), h 7 (by decide) (by decide) (by decide),
      h 6 (by decide) (by decide) (by decide), h 5 (by decide) (by decide) (by decide),
      h 4 (by decide) (by decide) (by decide), h 3 (by decide) (by decide) (by decide),
      h 2 (by decide) (by decide) (by decide), h 1 (by decide) (by decide) (by decide),
      h 0 (by decide) (by decide) (by decide)]
  have long_shape : ∀ (w : World) (st : struct_stat), w.stat name = .ok st →
      ∃ rest, (ls_long w ⟨name⟩ out).buf =
        out ++ [if S_ISDIR st.st_mode then 'd' else '-',
          if st.st_mode.testBit 8 then 'r' else '-',
          if st.st_mode.testBit 7 then 'w' else '-',
          if st.st_mode.testBit 6 then 'x' else '-',
          if st.st_mode.testBit 5 then 'r' else '-',
          if st.st_mode.testBit 4 then 'w' else '-',
          if st.st_mode.testBit 3 then 'x' else '-',
          if st.st_mode.testBit 2 then 'r' else '-',
          if st.st_mode.testBit 1 then 'w' else '-',
          if st.st_mode.testBit 0 then 'x' else '-'] ++ [' ', ' '] ++ rest := by
    intro w st hs
    cases hc : w.ctime st.st_mtime with
    | none =>
      have h := congrArg Outcome.buf (ls_long_crash w ⟨name⟩ st out hs hc)
      simp only [Outcome.buf] at h
      rw [bits] at h
      simp only [List.append_assoc] at h
      exact ⟨_, h.trans (append_regroup _ _ _ _)⟩
    | some ts =>
      have h := congrArg Outcome.buf (ls_long_ok w ⟨name⟩ st ts out hs hc)
      simp only [Outcome.buf] at h
      rw [bits] at h
      simp only [List.append_assoc] at h
      exact ⟨_, h.trans (append_regroup _ _ _ _)⟩
  have dir_shape : ∀ (w : World) (st : struct_stat), w.stat name = .ok st →
      ∃ rest, (ls_long_dir w name out).buf =
        out ++ [if S_ISDIR st.st_mode then 'd' else '-',
          if st.st_mode.testBit 8 then 'r' else '-',
          if st.st_mode.testBit 7 then 'w' else '-',
          if st.st_mode.testBit 6 then 'x' else '-',
          if st.st_mode.testBit 5 then 'r' else '-',
          if st.st_mode.testBit 4 then 'w' else '-',
          if st.st_mode.testBit 3 then 'x' else '-',
          if st.st_mode.testBit 2 then 'r' else '-',
          if st.st_mode.testBit 1 then 'w' else '-',
          if st.st_mode.testBit 0 then 'x' else '-'] ++ [' ', ' '] ++ rest := by
    intro w st hs
    cases hc : w.ctime st.st_mtime with
    | none =>
      have h := congrArg Outcome.buf (ls_long_dir_crash w name st out hs hc)
      simp only [Outcome.buf] at h
      rw [bits] at h
      simp only [List.append_assoc] at h
      exact ⟨_, h.trans (append_regroup _ _ _ _)⟩
    | some ts =>
      have h := congrArg Outcome.buf (ls_long_dir_ok w name st ts out hs hc)
      simp only [Outcome.buf] at h
      rw [bits] at h
      simp only [List.append_assoc] at h
      exact ⟨_, h.trans (append_regroup _ _ _ _)⟩
  refine ⟨_, ?_, long_shape w st hstat, dir_shape w st hstat, rfl, ?_⟩
  · rfl
  · intro w' st' hstat' hbits
    rw [← same st.st_mode st'.st_mode hbits]
    exact ⟨long_shape w' st' hstat', dir_shape w' st' hstat'⟩

/-- The scenario of C6: in the sample system `stat` succeeds on `notes.txt`, and the
field it yields is `-rw-r--r--` (mode 0100644); the same field is in the buffer for the
file `far`, on which the call is killed later. -/
theorem C6_type_permission_witness :
    sample_world.stat "notes.txt".toList = .ok sample_stat
    ∧ (∃ rest, (ls_long sample_world ⟨"notes.txt".toList⟩ []).buf
        = "-rw-r--r--".toList ++ [' ', ' '] ++ rest)
    ∧ (ls_long far_world ⟨"far".toList⟩ []).buf
        = "-rw-r--r--".toList ++ [' ', ' '] ++ "1  alice  unknown  42  ".toList := by
  refine ⟨rfl, ?_, by decide⟩
  obtain ⟨f, _, ⟨rest, hrest⟩, _, hf, _⟩ :=
    C6_type_permission_field sample_world "notes.txt".toList sample_stat [] rfl
  refine ⟨rest, ?_⟩
  rw [hrest, hf]
  have : [if S_ISDIR sample_stat.st_mode then 'd' else '-',
          if sample_stat.st_mode.testBit 8 then 'r' else '-',
          if sample_stat.st_mode.testBit 7 then 'w' else '-',
          if sample_stat.st_mode.testBit 6 then 'x' else '-',
          if sample_stat.st_mode.testBit 5 then 'r' else '-',
          if sample_stat.st_mode.testBit 4 then 'w' else '-',
          if sample_stat.st_mode.testBit 3 then 'x' else '-',
          if sample_stat.st_mode.testBit 2 then 'r' else '-',
          if sample_stat.st_mode.testBit 1 then 'w' else '-',
          if sample_stat.st_mode.testBit 0 then 'x' else '-'] = "-rw-r--r--".toList := by
    decide
  rw [this]
  rfl

/-- C7: when `ctime` returns a string of at least 16 characters, the loop over it appends
exactly its characters at the offsets 4 to 15, 12 characters, and that slice is the
field between the size and the name in the record of `ls_long` and of `ls_long_dir`;
`Fri May  4 09:42:11 2018` followed by a line feed yields `May  4 09:42`. -/
theorem C7_timestamp_slice (w : World) (name : CString) (st : struct_stat) (ts : CString)
    (out : Out) (hstat : w.stat name = .ok st) (hctime : w.ctime st.st_mtime = some ts)
    (hnul : '\x00' ∉ ts) (hlen : 16 ≤ ts.length) :
    (ts.drop 4).take 12 = (ts.take 16).drop 4
    ∧ ((ts.drop 4).take 12).length = 12
    ∧ (∀ k, k < 12 → ((ts.drop 4).take 12)[k]? = ts[4 + k]?)
    ∧ ctime_loop ts 12 4 out = out ++ (ts.drop 4).take 12
    ∧ (∃ pre, ls_long w ⟨name⟩ out
        = .returned () (out ++ pre ++ my_putnbr st.st_size [] ++ [' ', ' ']
          ++ (ts.drop 4).take 12 ++ [' ', ' '] ++ name ++ ['\n']))
    ∧ (∃ pre, ls_long_dir w name out
        = .returned () (out ++ pre ++ my_putnbr st.st_size [] ++ [' ', ' ']
          ++ (ts.drop 4).take 12 ++ [' ', ' '] ++ name ++ ['\n']))
    ∧ ctime_loop "Fri May  4 09:42:11 2018\n".toList 12 4 [] = "May  4 09:42".toList := by
  have hloop : ctime_loop ts 12 4 [] = (ts.drop 4).take 12 := by
    rw [ctime_loop_eq _ 12 4 (by decide)]
    apply List.takeWhile_eq_self_iff.mpr
    intro c hc
    have hmem : c ∈ ts := List.mem_of_mem_drop (List.mem_of_mem_take hc)
    have : c ≠ '\x00' := fun h => hnul (h ▸ hmem)
    simpa using this
  refine ⟨?_, ?_, ?_, ?_, ?_, ?_, by decide⟩
  · rw [List.drop_take]
  · simp only [List.length_take, List.length_drop]
    omega
  · intro k hk
    rw [List.getElem?_take_of_lt hk, List.getElem?_drop]
  · rw [ctime_loop_append, hloop]
  · have h := ls_long_ok w ⟨name⟩ st ts out hstat hctime
    rw [hloop] at h
    exact ⟨_, h.trans (congrArg (Outcome.returned ()) (record_tail_regroup _ _ _ _ _))⟩
  · have h := ls_long_dir_ok w name st ts out hstat hctime
    rw [hloop] at h
    exact ⟨_, h.trans (congrArg (Outcome.returned ()) (record_tail_regroup _ _ _ _ _))⟩

/-- The scenario of C7: in the sample system `ctime` returns for `notes.txt` the string
`Fri May  4 09:42:11 2018` and a line feed, 25 characters, and the loop appends
`May  4 09:42`. -/
theorem C7_timestamp_witness :
    sample_world.stat "notes.txt".toList = .ok sample_stat
    ∧ sample_world.ctime sample_stat.st_mtime = some "Fri May  4 09:42:11 2018\n".toList
    ∧ '\x00' ∉ "Fri May  4 09:42:11 2018\n".toList
    ∧ 16 ≤ "Fri May  4 09:42:11 2018\n".toList.length
    ∧ ctime_loop "Fri May  4 09:42:11 2018\n".toList 12 4 [] = "May  4 09:42".toList :=
  ⟨rfl, rfl, by decide, by decide,
   (C7_timestamp_slice sample_world "notes.txt".toList sample_stat
      "Fri May  4 09:42:11 2018\n".toList [] rfl rfl (by decide) (by decide)).2.2.2.1.trans
      (by decide)⟩

/-- C8 as stated fails, at three inputs.  For `notes.txt` in the sample system `ls_long`
appends the record whose name is followed by the line feed directly, not the text in which
each of the seven fields, the name included, is followed by two spaces.  For the file
named `a`, line feed, `b` the record holds two line feeds, so it is not one line.  For
the file `far`, whose `stat` succeeds, `ctime` returns NULL and the process is killed
after the size field: no timestamp, no name and no line feed are appended. -/
theorem C8_full_record_fails :
    (ls_long sample_world ⟨"notes.txt".toList⟩ []
      = .returned () "-rw-r--r--  1  alice  unknown  42  May  4 09:42  notes.txt\n".toList
    ∧ ls_long sample_world ⟨"notes.txt".toList⟩ []
      ≠ .returned () ("-rw-r--r--".toList ++ "  ".toList ++ "1".toList ++ "  ".toList
        ++ "alice".toList ++ "  ".toList ++ "unknown".toList ++ "  ".toList
        ++ "42".toList ++ "  ".toList ++ "May  4 09:42".toList ++ "  ".toList
        ++ "notes.txt".toList ++ "  ".toList ++ "\n".toList))
    ∧ (newline_world.stat "a\nb".toList = .ok sample_stat
      ∧ ls_long newline_world ⟨"a\nb".toList⟩ []
        = .returned () "-rw-r--r--  1  unknown  unknown  42  May  4 09:42  a\nb\n".toList
      ∧ (ls_long newline_world ⟨"a\nb".toList⟩ []).buf.count '\n' = 2)
    ∧ (far_world.stat "far".toList = .ok far_stat
      ∧ far_world.ctime far_stat.st_mtime = none
      ∧ ls_long far_world ⟨"far".toList⟩ []
        = .crashed "-rw-r--r--  1  alice  unknown  42  ".toList) :=
  ⟨by decide, ⟨rfl, by decide, by decide⟩, ⟨rfl, rfl, by decide⟩⟩

/-- C8, amended: when `stat` succeeds and `ctime` returns a string, `ls_long` returns
after appending the seven fields in the order type and permissions, link count, owner,
group, size, timestamp slice, name; each of the first six is followed by two spaces and
the name is followed directly by one line feed.  When owner, group, timestamp slice and
name hold no line feed, that final line feed is the only one, so the record is one
line. -/
theorem C8_full_record_layout (w : World) (entry : dirent) (st : struct_stat) (ts0 : CString)
    (out : Out) (hstat : w.stat entry.d_name = .ok st)
    (hctime : w.ctime st.st_mtime = some ts0) :
    ∃ perm links owner group size ts : List Char,
      perm = [if S_ISDIR st.st_mode then 'd' else '-',
              if st.st_mode &&& S_IRUSR ≠ 0 then 'r' else '-',
              if st.st_mode &&& S_IWUSR ≠ 0 then 'w' else '-',
              if st.st_mode &&& S_IXUSR ≠ 0 then 'x' else '-',
              if st.st_mode &&& S_IRGRP ≠ 0 then 'r' else '-',
              if st.st_mode &&& S_IWGRP ≠ 0 then 'w' else '-',
              if st.st_mode &&& S_IXGRP ≠ 0 then 'x' else '-',
              if st.st_mode &&& S_IROTH ≠ 0 then 'r' else '-',
              if st.st_mode &&& S_IWOTH ≠ 0 then 'w' else '-',
              if st.st_mode &&& S_IXOTH ≠ 0 then 'x' else '-']
      ∧ links = my_putnbr st.st_nlink []
      ∧ owner = (match w.getpwuid st.st_uid with
                 | some p => p.pw_name
                 | none => "unknown".toList)
      ∧ group = (match w.getgrgid st.st_gid with
                 | some g => g.gr_name
                 | none => "unknown".toList)
      ∧ size = my_putnbr st.st_size []
      ∧ ts = ((ts0.drop 4).take 12).takeWhile (fun c => c != '\x00')
      ∧ ls_long w entry out = .returned () (out ++ perm ++ [' ', ' '] ++ links ++ [' ', ' ']
          ++ owner ++ [' ', ' '] ++ group ++ [' ', ' '] ++ size ++ [' ', ' ']
          ++ ts ++ [' ', ' '] ++ entry.d_name ++ ['\n'])
      ∧ ('\n' ∉ owner → '\n' ∉ group → '\n' ∉ ts → '\n' ∉ entry.d_name →
          (perm ++ [' ', ' '] ++ links ++ [' ', ' '] ++ owner ++ [' ', ' '] ++ group
            ++ [' ', ' '] ++ size ++ [' ', ' '] ++ ts ++ [' ', ' '] ++ entry.d_name
            ++ ['\n']).count '\n' = 1) := by
  refine ⟨_, _, _, _, _, _, rfl, rfl, rfl, rfl, rfl, rfl, ?_, ?_⟩
  · rw [ls_long_ok w entry st ts0 out hstat hctime, ctime_loop_eq _ 12 4 (by decide)]
    simp only [my_putnbr, List.append_assoc, List.nil_append]
    rfl
  · intro ho hg ht hn
    have hperm : ∀ a b c d e f g h i j : Bool,
        List.count '\n' [if a then 'd' else '-', if b then 'r' else '-',
          if c then 'w' else '-', if d then 'x' else '-', if e then 'r' else '-',
          if f then 'w' else '-', if g then 'x' else '-', if h then 'r' else '-',
          if i then 'w' else '-', if j then 'x' else '-'] = 0 := by decide
    have hp := hperm (S_ISDIR st.st_mode) (decide (st.st_mode &&& S_IRUSR ≠ 0))
      (decide (st.st_mode &&& S_IWUSR ≠ 0)) (decide (st.st_mode &&& S_IXUSR ≠ 0))
      (decide (st.st_mode &&& S_IRGRP ≠ 0)) (decide (st.st_mode &&& S_IWGRP ≠ 0))
      (decide (st.st_mode &&& S_IXGRP ≠ 0)) (decide (st.st_mode &&& S_IROTH ≠ 0))
      (decide (st.st_mode &&& S_IWOTH ≠ 0)) (decide (st.st_mode &&& S_IXOTH ≠ 0))
    simp only [decide_eq_true_eq] at hp
    have hsp : List.count '\n' [' ', ' '] = 0 := by decide
    have hnl : List.count '\n' ['\n'] = 1 := by decide
    have hl : List.count '\n' (my_putnbr st.st_nlink []) = 0 :=
      List.count_eq_zero.mpr (by simpa [my_putnbr] using toDigits_no_newline st.st_nlink)
    have hs : List.count '\n' (my_putnbr st.st_size []) = 0 :=
      List.count_eq_zero.mpr (by simpa [my_putnbr] using toDigits_no_newline st.st_size)
    simp only [List.count_append, hp, hsp, hnl, hl, hs, List.count_eq_zero.mpr ho,
      List.count_eq_zero.mpr hg, List.count_eq_zero.mpr ht, List.count_eq_zero.mpr hn]

/-- The scenario of C8: for `notes.txt` in the sample system `stat` succeeds, `ctime`
returns a string, and the amended layout gives the record
`-rw-r--r--  1  alice  unknown  42  May  4 09:42  notes.txt` and a line feed. -/
theorem C8_full_record_witness :
    sample_world.stat "notes.txt".toList = .ok sample_stat
    ∧ sample_world.ctime sample_stat.st_mtime = some "Fri May  4 09:42:11 2018\n".toList
    ∧ ls_long sample_world ⟨"notes.txt".toList⟩ []
      = .returned () "-rw-r--r--  1  alice  unknown  42  May  4 09:42  notes.txt\n".toList := by
  refine ⟨rfl, rfl, ?_⟩
  obtain ⟨perm, links, owner, group, size, ts, h1, h2, h3, h4, h5, h6, heq, _⟩ :=
    C8_full_record_layout sample_world ⟨"notes.txt".toList⟩ sample_stat
      "Fri May  4 09:42:11 2018\n".toList [] rfl rfl
  rw [heq, h1, h2, h3, h4, h5, h6]
  decide

/-- C9: in a full record, that is when `stat` succeeds and `ctime` returns a string, the
owner field of the record of `ls_long` is the name the uid lookup returns, or `unknown`
when the lookup fails, and likewise and independently the group field with the gid
lookup; whatever the two lookups return, the text before the owner field and the text
after the group field are the same, so a failed lookup adds no error line and removes no
field. -/
theorem C9_identity_fallback (w : World) (entry : dirent) (st : struct_stat) (ts : CString)
    (out : Out) (hstat : w.stat entry.d_name = .ok st)
    (hctime : w.ctime st.st_mtime = some ts) :
    ∃ head tail : List Char,
      (∃ tail', tail = tail' ++ entry.d_name ++ ['\n'])
      ∧ ∀ (pwf : Nat → Option passwd) (grf : Nat → Option group),
        ls_long { w with getpwuid := pwf, getgrgid := grf } entry out
          = .returned () (out ++ head
            ++ (match pwf st.st_uid with
                | some p => p.pw_name
                | none => "unknown".toList) ++ [' ', ' ']
            ++ (match grf st.st_gid with
                | some g => g.gr_name
                | none => "unknown".toList) ++ [' ', ' ']
            ++ tail) := by
  refine ⟨[if S_ISDIR st.st_mode then 'd' else '-',
        if st.st_mode &&& S_IRUSR ≠ 0 then 'r' else '-',
        if st.st_mode &&& S_IWUSR ≠ 0 then 'w' else '-',
        if st.st_mode &&& S_IXUSR ≠ 0 then 'x' else '-',
        if st.st_mode &&& S_IRGRP ≠ 0 then 'r' else '-',
        if st.st_mode &&& S_IWGRP ≠ 0 then 'w' else '-',
        if st.st_mode &&& S_IXGRP ≠ 0 then 'x' else '-',
        if st.st_mode &&& S_IROTH ≠ 0 then 'r' else '-',
        if st.st_mode &&& S_IWOTH ≠ 0 then 'w' else '-',
        if st.st_mode &&& S_IXOTH ≠ 0 then 'x' else '-'] ++ [' ', ' ']
      ++ Nat.toDigits 10 st.st_nlink ++ [' ', ' '],
    Nat.toDigits 10 st.st_size ++ [' ', ' ']
      ++ ctime_loop ts 12 4 [] ++ [' ', ' '] ++ entry.d_name ++ ['\n'],
    ⟨_, rfl⟩, ?_⟩
  intro pwf grf
  rw [ls_long_ok { w with getpwuid := pwf, getgrgid := grf } entry st ts out hstat hctime]
  simp only [List.append_assoc]
  rfl

/-- The scenario of C9: in the sample system `notes.txt` is a regular file with
permissions `rw-r--r--` and size 42 whose owner resolves to `alice` and whose group does
not resolve; its record is `-rw-r--r--  1  alice  unknown  42  May  4 09:42  notes.txt`
and a line feed, and with a failing owner lookup only the owner field changes. -/
theorem C9_identity_fallback_witness :
    sample_world.stat "notes.txt".toList = .ok sample_stat
    ∧ sample_world.ctime sample_stat.st_mtime = some "Fri May  4 09:42:11 2018\n".toList
    ∧ (∃ head tail : List Char, ∀ (pwf : Nat → Option passwd) (grf : Nat → Option group),
        ls_long { sample_world with getpwuid := pwf, getgrgid := grf }
            ⟨"notes.txt".toList⟩ []
          = .returned () ([] ++ head
            ++ (match pwf sample_stat.st_uid with
                | some p => p.pw_name
                | none => "unknown".toList) ++ [' ', ' ']
            ++ (match grf sample_stat.st_gid with
                | some g => g.gr_name
                | none => "unknown".toList) ++ [' ', ' ']
            ++ tail))
    ∧ ls_long sample_world ⟨"notes.txt".toList⟩ []
      = .returned () ("-rw-r--r--  1  alice  unknown  42  ".toList ++ "May  4 09:42".toList
        ++ "  ".toList ++ "notes.txt".toList ++ "\n".toList)
    ∧ ls_long { sample_world with getpwuid := fun _ => none } ⟨"notes.txt".toList⟩ []
      = .returned () ("-rw-r--r--  1  unknown  unknown  42  ".toList
        ++ "May  4 09:42".toList ++ "  ".toList ++ "notes.txt".toList ++ "\n".toList) := by
  refine ⟨rfl, rfl, ?_, by decide, by decide⟩
  obtain ⟨head, tail, _, h⟩ :=
    C9_identity_fallback sample_world ⟨"notes.txt".toList⟩ sample_stat
      "Fri May  4 09:42:11 2018\n".toList [] rfl rfl
  exact ⟨head, tail, h⟩

/-! ## The minimal listing -/

/-- C10 as stated fails: the current directory of `newline_world` opens and holds one
entry whose name contains a line feed; with no flag `ls` appends the name, three spaces
and a line feed, a text with two line feeds, the first of them not at the end. -/
theorem C10_name_with_line_feed :
    ls newline_world ["my_ls".toList] [] = .returned 0 "a\nb   \n".toList
    ∧ (ls newline_world ["my_ls".toList] []).buf.count '\n' = 2
    ∧ (ls newline_world ["my_ls".toList] []).buf[1]? = some '\n' := by
  decide

/-- C10, amended: with `-l` and `-d` off and a directory that opens, for every
combination of `-a` and `-A` the text `ls` appends ends with one line feed, appended
after the last rendered entry; when no rendered name holds a line feed, that final
character is the only line feed of the appended text. -/
theorem C10_one_trailing_line_feed (w : World) (argv : List CString) (o : options)
    (entries : List dirent) (out : Out)
    (hparse : parse_options argv ls_locals = o)
    (hl : o.flag_l = false) (hd : o.flag_d = false)
    (hopen : w.opendir o.directory = .ok entries) :
    ∃ body : List Char,
      ls w argv out = .returned 0 (out ++ body ++ ['\n'])
      ∧ ((∀ n ∈ rendered o.flag_a o.flag_A (entries.map dirent.d_name), '\n' ∉ n) →
          '\n' ∉ body ∧ (body ++ ['\n']).count '\n' = 1) := by
  refine ⟨_, ls_simple_listing w argv o entries out hparse hl hd hopen, ?_⟩
  intro hnames
  have hbody : '\n' ∉ (rendered o.flag_a o.flag_A (entries.map dirent.d_name)).flatMap
      (fun n => n ++ [' ', ' ', ' ']) := by
    intro hmem
    obtain ⟨n, hn, hc⟩ := List.mem_flatMap.mp hmem
    rcases List.mem_append.mp hc with h1 | h1
    · exact hnames n hn h1
    · revert h1
      decide
  refine ⟨hbody, ?_⟩
  rw [List.count_append, List.count_eq_zero.mpr hbody]
  decide

/-- The scenario of C10: in the sample system `my_ls -a` opens the current directory,
no name holds a line feed, and the appended text has its only line feed at the end. -/
theorem C10_one_trailing_line_feed_witness :
    parse_options ["my_ls".toList, "-a".toList] ls_locals
      = { flag_a := true, flag_A := false, flag_l := false, flag_d := false,
          directory := ".".toList }
    ∧ sample_world.opendir ".".toList
      = .ok [⟨".".toList⟩, ⟨"..".toList⟩, ⟨"notes.txt".toList⟩, ⟨".hidden".toList⟩]
    ∧ (∃ body : List Char,
        ls sample_world ["my_ls".toList, "-a".toList] [] = .returned 0 ([] ++ body ++ ['\n'])
        ∧ '\n' ∉ body ∧ (body ++ ['\n']).count '\n' = 1)
    ∧ ls sample_world ["my_ls".toList, "-a".toList] []
      = .returned 0 ".   ..   notes.txt   .hidden   \n".toList := by
  refine ⟨by decide, rfl, ?_, by decide⟩
  obtain ⟨body, h1, h2⟩ :=
    C10_one_trailing_line_feed sample_world ["my_ls".toList, "-a".toList]
      { flag_a := true, flag_A := false, flag_l := false, flag_d := false,
        directory := ".".toList }
      [⟨".".toList⟩, ⟨"..".toList⟩, ⟨"notes.txt".toList⟩, ⟨".hidden".toList⟩] []
      (by decide) rfl rfl rfl
  exact ⟨body, h1, h2 (by decide)⟩

/-! ## Lemmas on option parsing and on the long listing -/

/-- The inner loop of `parse_options` raises each flag whose character occurs among the
characters it scans, and changes nothing else. -/
theorem parse_flag_chars_eq (cs : List Char) (o : options) :
    parse_flag_chars cs o =
      { flag_a := o.flag_a || decide ('a' ∈ cs)
        flag_A := o.flag_A || decide ('A' ∈ cs)
        flag_l := o.flag_l || decide ('l' ∈ cs)
        flag_d := o.flag_d || decide ('d' ∈ cs)
        directory := o.directory } := by
  induction cs generalizing o with
  | nil => simp [parse_flag_chars]
  | cons c cs ih =>
    unfold parse_flag_chars
    by_cases ha : c = 'a'
    · subst ha
      simp [ih]
    · by_cases hA : c = 'A'
      · subst hA
        simp [ih]
      · by_cases hl : c = 'l'
        · subst hl
          simp [ih]
        · by_cases hd : c = 'd'
          · subst hd
            simp [ih]
          · have ha' : ¬ 'a' = c := fun h => ha h.symm
            have hA' : ¬ 'A' = c := fun h => hA h.symm
            have hl' : ¬ 'l' = c := fun h => hl h.symm
            have hd' : ¬ 'd' = c := fun h => hd h.symm
            simp [ih, ha, hA, hl, hd, ha', hA', hl', hd']

/-- Reading index 0 of a token yields `-` exactly when the token starts with `-`. -/
theorem cAt_zero_dash (t : CString) : cAt t 0 = '-' ↔ t.head? = some '-' := by
  cases t with
  | nil => simp [cAt]
  | cons c cs => simp [cAt]

/-- The outer loop of `parse_options`: each flag is raised when its character occurs after
the first character of some token starting with `-`, and the path becomes the last token
not starting with `-`, if there is one. -/
theorem parse_args_eq (toks : List CString) (o : options) :
    parse_args toks o =
      { flag_a := o.flag_a ||
          toks.any (fun t => decide (t.head? = some '-') && decide ('a' ∈ t.tail))
        flag_A := o.flag_A ||
          toks.any (fun t => decide (t.head? = some '-') && decide ('A' ∈ t.tail))
        flag_l := o.flag_l ||
          toks.any (fun t => decide (t.head? = some '-') && decide ('l' ∈ t.tail))
        flag_d := o.flag_d ||
          toks.any (fun t => decide (t.head? = some '-') && decide ('d' ∈ t.tail))
        directory :=
          ((toks.filter (fun t => decide (t.head? ≠ some '-'))).getLast?).getD o.directory } := by
  induction toks generalizing o with
  | nil => simp [parse_args]
  | cons t rest ih =>
    unfold parse_args
    by_cases h : t.head? = some '-'
    · have hc : cAt t 0 = '-' := (cAt_zero_dash t).mpr h
      simp only [hc, if_true]
      rw [ih, parse_flag_chars_eq]
      simp [h, Bool.or_assoc, List.drop_one]
    · have hc : ¬ cAt t 0 = '-' := fun hc => h ((cAt_zero_dash t).mp hc)
      simp only [hc, if_false]
      rw [ih]
      simp only [List.any_cons, h, decide_False, Bool.false_and, Bool.false_or,
        List.filter_cons, ne_eq, not_false_eq_true, decide_True, if_true]
      congr 1
      cases hr : List.filter (fun t => decide (¬ t.head? = some '-')) rest with
      | nil => simp
      | cons x xs =>
        simp only [List.getLast?_cons_cons]
        rw [List.getLast?_eq_getLast _ (List.cons_ne_nil x xs)]
        rfl

/-- The long listing: with `-l` on, `-d` off and a directory that opens, `ls` runs the
render statement on each rendered name in order and, unless the process was killed on
the way, returns 0 without appending anything else. -/
theorem ls_long_listing (w : World) (argv : List CString) (o : options)
    (entries : List dirent) (out : Out)
    (hparse : parse_options argv ls_locals = o)
    (hl : o.flag_l = true) (hd : o.flag_d = false)
    (hopen : w.opendir o.directory = .ok entries) :
    ls w argv out =
      ((rendered o.flag_a o.flag_A (entries.map dirent.d_name)).foldl
        (fun s n => render_entry w true ⟨n⟩ s) (.returned () out)).seq
        (fun _ buf => .returned 0 buf) := by
  unfold ls
  simp only [hparse, hl, hd, hopen, Bool.false_eq_true, if_false, if_true, Bool.not_true]
  rw [ls_loop_eq_foldl, rendered_eq_filter, List.filter_map, List.foldl_map]
  rfl

/-- Directory-itself mode: with `-d` on, `ls` either runs `ls_long_dir` on the path and,
unless the process was killed, returns 0 (with `-l`), or appends the path and a line feed
and returns 0. -/
theorem ls_dir_itself (w : World) (argv : List CString) (o : options) (out : Out)
    (hparse : parse_options argv ls_locals = o) (hd : o.flag_d = true) :
    ls w argv out =
      if o.flag_l then (ls_long_dir w o.directory out).seq (fun _ buf => .returned 0 buf)
      else .returned 0 (out ++ o.directory ++ ['\n']) := by
  unfold ls
  simp only [hparse, hd, if_true, my_putstr, my_putchar]

/-- When `stat` succeeds on a name, `ls_long_dir` on the name and `ls_long` on an entry of
that name end alike, with the same buffer. -/
theorem ls_long_dir_eq_ls_long (w : World) (name : CString) (st : struct_stat) (out : Out)
    (hstat : w.stat name = .ok st) :
    ls_long_dir w name out = ls_long w ⟨name⟩ out := by
  simp only [ls_long_dir, ls_long, hstat]

/-- C11, the code at a failing input: whenever `main` returns, it returns 0; in particular
when `-d` is off and the target does not open, `ls` returns -1 after the error line and
`main` returns 0 all the same; in the sample system the path `missing` cannot be opened,
`ls` returns -1, and `main` returns 0. -/
theorem C11_main_never_reports_failure :
    (∀ (w : World) (argv : List CString) (k : Int) (buf : Out),
        main w argv = .returned k buf → k = 0)
    ∧ (∀ (w : World) (argv : List CString) (o : options) (errno : Nat),
        parse_options argv ls_locals = o → o.flag_d = false →
        w.opendir o.directory = .error errno →
        ls w argv [] = .returned (-1) (w.strerror errno ++ ['\n'])
        ∧ main w argv = .returned 0 (w.strerror errno ++ ['\n']))
    ∧ sample_world.opendir "missing".toList = .error 2
    ∧ ls sample_world ["my_ls".toList, "missing".toList] []
        = .returned (-1) "No such file or directory\n".toList
    ∧ main sample_world ["my_ls".toList, "missing".toList]
        = .returned 0 "No such file or directory\n".toList := by
  refine ⟨?_, ?_, rfl, by decide, by decide⟩
  · intro w argv k buf h
    unfold main at h
    cases hls : ls w argv [] with
    | returned v b =>
      rw [hls] at h
      simp only [Outcome.seq, Outcome.returned.injEq] at h
      exact h.1.symm
    | crashed b =>
      rw [hls] at h
      simp [Outcome.seq] at h
  · intro w argv o errno hparse hd hopen
    have hls : ls w argv [] = .returned (-1) (w.strerror errno ++ ['\n']) := by
      unfold ls
      simp only [hparse, hd, hopen, Bool.false_eq_true, if_false, my_putstr, my_putchar,
        List.nil_append]
    refine ⟨hls, ?_⟩
    unfold main
    rw [hls]
    rfl

/-- C12: with `-d` off, when opening the target fails `ls` appends exactly the error
description and one line feed, whatever the other flags and the rest of the system are,
and returns -1. -/
theorem C12_open_failure (w : World) (argv : List CString) (o : options) (out : Out)
    (errno : Nat)
    (hparse : parse_options argv ls_locals = o) (hd : o.flag_d = false)
    (hopen : w.opendir o.directory = .error errno) :
    ls w argv out = .returned (-1) (out ++ w.strerror errno ++ ['\n']) := by
  unfold ls
  simp only [hparse, hd, hopen, Bool.false_eq_true, if_false, my_putstr, my_putchar]

/-- The scenario of C12: in the sample system `my_ls -l missing` parses to long format
on the path `missing`, which does not open (error 2); `ls` appends the one error line and
returns -1. -/
theorem C12_open_failure_witness :
    parse_options ["my_ls".toList, "-l".toList, "missing".toList] ls_locals
      = { flag_a := false, flag_A := false, flag_l := true, flag_d := false,
          directory := "missing".toList }
    ∧ sample_world.opendir "missing".toList = .error 2
    ∧ ls sample_world ["my_ls".toList, "-l".toList, "missing".toList] []
      = .returned (-1) "No such file or directory\n".toList :=
  ⟨by decide, rfl,
   (C12_open_failure sample_world ["my_ls".toList, "-l".toList, "missing".toList]
      { flag_a := false, flag_A := false, flag_l := true, flag_d := false,
        directory := "missing".toList } [] 2 (by decide) rfl rfl).trans (by decide)⟩

/-- Two token lists with the same tokens not starting with `-`, in the same order, and
the same flag characters behind a leading `-` are parsed alike. -/
theorem parse_args_congr (toks toks' : List CString) (o : options)
    (hpath : toks.filter (fun t => decide (t.head? ≠ some '-'))
      = toks'.filter (fun t => decide (t.head? ≠ some '-')))
    (hflag : ∀ c, c ∈ ['a', 'A', 'l', 'd'] →
      ((∃ t ∈ toks, t.head? = some '-' ∧ c ∈ t.tail)
        ↔ (∃ t ∈ toks', t.head? = some '-' ∧ c ∈ t.tail))) :
    parse_args toks o = parse_args toks' o := by
  have hany : ∀ c, c ∈ ['a', 'A', 'l', 'd'] →
      toks.any (fun t => decide (t.head? = some '-') && decide (c ∈ t.tail))
        = toks'.any (fun t => decide (t.head? = some '-') && decide (c ∈ t.tail)) := by
    intro c hc
    rw [Bool.eq_iff_iff]
    simp only [List.any_eq_true, Bool.and_eq_true, decide_eq_true_eq]
    exact hflag c hc
  rw [parse_args_eq toks o, parse_args_eq toks' o, hpath, hany 'a' (by decide),
    hany 'A' (by decide), hany 'l' (by decide), hany 'd' (by decide)]

/-! ## Directory-itself mode -/

/-- C14: with `-d` on and `-l` off, `ls` appends exactly the target path and one line
feed, and returns 0. -/
theorem C14_dir_itself_minimal (w : World) (argv : List CString) (o : options) (out : Out)
    (hparse : parse_options argv ls_locals = o)
    (hd : o.flag_d = true) (hl : o.flag_l = false) :
    ls w argv out = .returned 0 (out ++ o.directory ++ ['\n']) := by
  rw [ls_dir_itself w argv o out hparse hd]
  simp [hl]

/-- The scenario of C14: `my_ls -d some/dir` parses to directory-itself mode without long
format and appends `some/dir` and a line feed, though that path does not open in the
sample system. -/
theorem C14_dir_itself_minimal_witness :
    parse_options ["my_ls".toList, "-d".toList, "some/dir".toList] ls_locals
      = { flag_a := false, flag_A := false, flag_l := false, flag_d := true,
          directory := "some/dir".toList }
    ∧ ls sample_world ["my_ls".toList, "-d".toList, "some/dir".toList] []
      = .returned 0 "some/dir\n".toList :=
  ⟨by decide,
   (C14_dir_itself_minimal sample_world ["my_ls".toList, "-d".toList, "some/dir".toList]
      { flag_a := false, flag_A := false, flag_l := false, flag_d := true,
        directory := "some/dir".toList } [] (by decide) rfl rfl).trans (by decide)⟩

/-- C15, the code at a failing input.  Whenever `stat` succeeds on a name, `ls_long_dir`
on the name and `ls_long` on an entry of that name end alike with the same buffer, so the
two renderers are uniform.  But `my_ls -ld far` in `far_world`, where `stat` succeeds on
`far` and `ctime` returns NULL for its time, does not output one full record: the
process is killed after the size field, before the timestamp and the name.  In the
sample system `my_ls -ld notes.txt` outputs the one full record and returns 0. -/
theorem C15_long_dir_not_one_record :
    (∀ (w : World) (name : CString) (st : struct_stat) (out : Out), w.stat name = .ok st →
        ls_long_dir w name out = ls_long w ⟨name⟩ out)
    ∧ parse_options ["my_ls".toList, "-ld".toList, "far".toList] ls_locals
        = { flag_a := false, flag_A := false, flag_l := true, flag_d := true,
            directory := "far".toList }
    ∧ far_world.stat "far".toList = .ok far_stat
    ∧ far_world.ctime far_stat.st_mtime = none
    ∧ ls far_world ["my_ls".toList, "-ld".toList, "far".toList] []
        = .crashed "-rw-r--r--  1  alice  unknown  42  ".toList
    ∧ ls sample_world ["my_ls".toList, "-ld".toList, "notes.txt".toList] []
        = .returned 0 "-rw-r--r--  1  alice  unknown  42  May  4 09:42  notes.txt\n".toList :=
  ⟨ls_long_dir_eq_ls_long, by decide, rfl, rfl, by decide, by decide⟩

/-! ## Option parsing -/

/-- C16: started from the locals of `ls`, `parse_options` sets the path to the last token
after `argv[0]` that does not start with `-`, and to `.` when there is none; it sets each
of the flags `a`, `A`, `l`, `d` exactly when its character occurs behind the leading `-`
of some token after `argv[0]`; and a character other than these four inside such a token
changes neither the flags nor the path. -/
theorem C16_parse_options_result (argv : List CString) :
    (parse_options argv ls_locals).directory
      = (((argv.drop 1).filter (fun t => t.head? ≠ some '-')).getLast?).getD ".".toList
    ∧ ((∀ t ∈ argv.drop 1, t.head? = some '-') →
        (parse_options argv ls_locals).directory = ".".toList)
    ∧ ((parse_options argv ls_locals).flag_a = true
        ↔ ∃ t ∈ argv.drop 1, t.head? = some '-' ∧ 'a' ∈ t.tail)
    ∧ ((parse_options argv ls_locals).flag_A = true
        ↔ ∃ t ∈ argv.drop 1, t.head? = some '-' ∧ 'A' ∈ t.tail)
    ∧ ((parse_options argv ls_locals).flag_l = true
        ↔ ∃ t ∈ argv.drop 1, t.head? = some '-' ∧ 'l' ∈ t.tail)
    ∧ ((parse_options argv ls_locals).flag_d = true
        ↔ ∃ t ∈ argv.drop 1, t.head? = some '-' ∧ 'd' ∈ t.tail)
    ∧ (∀ (c : Char) (pre post : List CString) (s1 s2 : List Char) (o : options),
        c ≠ 'a' → c ≠ 'A' → c ≠ 'l' → c ≠ 'd' →
        parse_options (pre ++ ('-' :: (s1 ++ c :: s2)) :: post) o
          = parse_options (pre ++ ('-' :: (s1 ++ s2)) :: post) o) := by
  have hdirectory : (parse_options argv ls_locals).directory
      = (((argv.drop 1).filter (fun t => t.head? ≠ some '-')).getLast?).getD ".".toList := by
    unfold parse_options
    rw [parse_args_eq]
  refine ⟨hdirectory, ?_, ?_, ?_, ?_, ?_, ?_⟩
  · intro hall
    rw [hdirectory]
    have : (argv.drop 1).filter (fun t => t.head? ≠ some '-') = [] := by
      rw [List.filter_eq_nil_iff]
      intro t ht
      simp [hall t ht]
    rw [this]
    rfl
  · unfold parse_options
    rw [parse_args_eq]
    simp [ls_locals]
  · unfold parse_options
    rw [parse_args_eq]
    simp [ls_locals]
  · unfold parse_options
    rw [parse_args_eq]
    simp [ls_locals]
  · unfold parse_options
    rw [parse_args_eq]
    simp [ls_locals]
  · intro c pre post s1 s2 o ha hA hl hd
    unfold parse_options
    cases pre with
    | nil => rfl
    | cons p pre =>
      simp only [List.cons_append, List.drop_succ_cons, List.drop_zero]
      apply parse_args_congr
      · simp [List.filter_append, List.filter_cons]
      · intro x hx
        have hxc : x ≠ c := by
          rintro rfl
          simp only [List.mem_cons, List.mem_singleton, List.not_mem_nil, or_false] at hx
          rcases hx with h | h | h | h
          · exact ha h
          · exact hA h
          · exact hl h
          · exact hd h
        simp only [List.mem_append, List.mem_cons, exists_or, or_and_right, exists_or,
          exists_eq_left, List.head?_cons, List.tail_cons, true_and, hxc, false_or]

/-- C18: what `parse_options` computes does not depend on how the flag characters are
supplied: permuting the characters of a cluster, splitting a cluster into two tokens,
repeating a flag character or a whole flag token, and reordering the tokens while keeping
the tokens that do not start with `-` in their order all leave the four flags and the
path unchanged; `-la`, `-al` and `-l -a` are parsed alike, before or after the path, and
so are `-ld` and `-dl`. -/
theorem C18_flag_supply_irrelevant (argv0 : CString) (pre post : List CString) (o : options) :
    (∀ s s' : List Char, s.Perm s' →
        parse_options (argv0 :: pre ++ ('-' :: s) :: post) o
          = parse_options (argv0 :: pre ++ ('-' :: s') :: post) o)
    ∧ (∀ s t : List Char,
        parse_options (argv0 :: pre ++ ('-' :: (s ++ t)) :: post) o
          = parse_options (argv0 :: pre ++ ('-' :: s) :: ('-' :: t) :: post) o)
    ∧ (∀ (c : Char) (s1 s2 : List Char),
        parse_options (argv0 :: pre ++ ('-' :: (s1 ++ c :: s2)) :: post) o
          = parse_options (argv0 :: pre ++ ('-' :: (s1 ++ c :: c :: s2)) :: post) o)
    ∧ (∀ s : List Char,
        parse_options (argv0 :: pre ++ ('-' :: s) :: post) o
          = parse_options (argv0 :: pre ++ ('-' :: s) :: ('-' :: s) :: post) o)
    ∧ (∀ toks toks' : List CString, toks.Perm toks' →
        toks.filter (fun t => t.head? ≠ some '-') = toks'.filter (fun t => t.head? ≠ some '-') →
        parse_options (argv0 :: toks) o = parse_options (argv0 :: toks') o)
    ∧ parse_options ["my_ls".toList, "-la".toList, "dir".toList] ls_locals
        = parse_options ["my_ls".toList, "-al".toList, "dir".toList] ls_locals
    ∧ parse_options ["my_ls".toList, "-la".toList, "dir".toList] ls_locals
        = parse_options ["my_ls".toList, "-l".toList, "-a".toList, "dir".toList] ls_locals
    ∧ parse_options ["my_ls".toList, "-la".toList, "dir".toList] ls_locals
        = parse_options ["my_ls".toList, "-a".toList, "dir".toList, "-l".toList] ls_locals
    ∧ parse_options ["my_ls".toList, "-ld".toList, "dir".toList] ls_locals
        = parse_options ["my_ls".toList, "dir".toList, "-dl".toList] ls_locals := by
  refine ⟨?_, ?_, ?_, ?_, ?_, by decide, by decide, by decide, by decide⟩
  · intro s s' hperm
    unfold parse_options
    simp only [List.cons_append, List.drop_succ_cons, List.drop_zero]
    apply parse_args_congr
    · simp [List.filter_append, List.filter_cons]
    · intro x _
      simp only [List.mem_append, List.mem_cons, exists_or, or_and_right,
        exists_eq_left, List.head?_cons, List.tail_cons, true_and, hperm.mem_iff]
  · intro s t
    unfold parse_options
    simp only [List.cons_append, List.drop_succ_cons, List.drop_zero]
    apply parse_args_congr
    · simp [List.filter_append, List.filter_cons]
    · intro x _
      simp only [List.mem_append, List.mem_cons, exists_or, or_and_right,
        exists_eq_left, List.head?_cons, List.tail_cons, true_and, or_assoc]
  · intro c s1 s2
    unfold parse_options
    simp only [List.cons_append, List.drop_succ_cons, List.drop_zero]
    apply parse_args_congr
    · simp [List.filter_append, List.filter_cons]
    · intro x _
      simp only [List.mem_append, List.mem_cons, exists_or, or_and_right,
        exists_eq_left, List.head?_cons, List.tail_cons, true_and]
      generalize (∃ t, t ∈ pre ∧ List.head? t = some '-' ∧ x ∈ List.tail t) = P
      generalize (∃ t, t ∈ post ∧ List.head? t = some '-' ∧ x ∈ List.tail t) = Q
      tauto
  · intro s
    unfold parse_options
    simp only [List.cons_append, List.drop_succ_cons, List.drop_zero]
    apply parse_args_congr
    · simp [List.filter_append, List.filter_cons]
    · intro x _
      simp only [List.mem_append, List.mem_cons, exists_or, or_and_right,
        exists_eq_left, List.head?_cons, List.tail_cons, true_and]
      generalize (∃ t, t ∈ pre ∧ List.head? t = some '-' ∧ x ∈ List.tail t) = P
      generalize (∃ t, t ∈ post ∧ List.head? t = some '-' ∧ x ∈ List.tail t) = Q
      tauto
  · intro toks toks' hperm hpath
    unfold parse_options
    simp only [List.drop_succ_cons, List.drop_zero]
    apply parse_args_congr
    · simpa using hpath
    · intro x _
      constructor
      · rintro ⟨t, ht, h⟩
        exact ⟨t, hperm.mem_iff.mp ht, h⟩
      · rintro ⟨t, ht, h⟩
        exact ⟨t, hperm.mem_iff.mpr ht, h⟩

/-! ## The listing as a whole -/

/-- C17: with `-l` and `-d` off and a directory that opens, `ls` returns 0 and the text
it appends is, for each name that survives the visibility filter, in enumeration order,
the name followed by three spaces, and then one line feed; when no name survives, the
text is the line feed alone. -/
theorem C17_minimal_listing_text (w : World) (argv : List CString) (o : options)
    (entries : List dirent) (out : Out)
    (hparse : parse_options argv ls_locals = o)
    (hl : o.flag_l = false) (hd : o.flag_d = false)
    (hopen : w.opendir o.directory = .ok entries) :
    ls w argv out = .returned 0 (out
      ++ (rendered o.flag_a o.flag_A (entries.map dirent.d_name)).flatMap
          (fun n => n ++ "   ".toList)
      ++ "\n".toList)
    ∧ (rendered o.flag_a o.flag_A (entries.map dirent.d_name) = [] →
        ls w argv out = .returned 0 (out ++ "\n".toList)) := by
  have h := ls_simple_listing w argv o entries out hparse hl hd hopen
  refine ⟨h, ?_⟩
  intro hnone
  rw [h, hnone]
  simp

/-- The scenario of C17: in the sample system `my_ls -A` opens the current directory and
appends `notes.txt` and `.hidden`, each followed by three spaces, then a line feed. -/
theorem C17_minimal_listing_witness :
    parse_options ["my_ls".toList, "-A".toList] ls_locals
      = { flag_a := false, flag_A := true, flag_l := false, flag_d := false,
          directory := ".".toList }
    ∧ sample_world.opendir ".".toList
      = .ok [⟨".".toList⟩, ⟨"..".toList⟩, ⟨"notes.txt".toList⟩, ⟨".hidden".toList⟩]
    ∧ ls sample_world ["my_ls".toList, "-A".toList] []
      = .returned 0 "notes.txt   .hidden   \n".toList :=
  ⟨by decide, rfl,
   ((C17_minimal_listing_text sample_world ["my_ls".toList, "-A".toList]
      { flag_a := false, flag_A := true, flag_l := false, flag_d := false,
        directory := ".".toList }
      [⟨".".toList⟩, ⟨"..".toList⟩, ⟨"notes.txt".toList⟩, ⟨".hidden".toList⟩] []
      (by decide) rfl rfl rfl).1).trans (by decide)⟩

/-- C19, the code at a failing input.  With `-d` on, the result of `ls` is the same
whatever `opendir` would do and whatever `-a` and `-A` are, and without `-l`, or with
`-l` and a failing `stat`, `ls` returns 0.  But it does not return 0 for every path:
`my_ls -ld far` in `far_world`, where `stat` succeeds on `far` and `ctime` returns NULL
for its time, is killed inside `ls_long_dir` and returns nothing. -/
theorem C19_dir_itself_not_always_zero :
    (∀ (w : World) (argv : List CString) (o : options) (out : Out),
        parse_options argv ls_locals = o → o.flag_d = true →
        (∀ od : CString → Except Nat (List dirent),
          ls { w with opendir := od } argv out = ls w argv out)
        ∧ (∀ (argv' : List CString) (o' : options), parse_options argv' ls_locals = o' →
            o'.flag_d = true → o'.flag_l = o.flag_l → o'.directory = o.directory →
            ls w argv' out = ls w argv out)
        ∧ (o.flag_l = true → ∀ errno, w.stat o.directory = .error errno →
            ls w argv out = .returned 0 (out ++ w.strerror errno ++ ['\n']))
        ∧ (o.flag_l = false → ls w argv out = .returned 0 (out ++ o.directory ++ ['\n'])))
    ∧ parse_options ["my_ls".toList, "-ld".toList, "far".toList] ls_locals
        = { flag_a := false, flag_A := false, flag_l := true, flag_d := true,
            directory := "far".toList }
    ∧ far_world.stat "far".toList = .ok far_stat
    ∧ far_world.ctime far_stat.st_mtime = none
    ∧ ls far_world ["my_ls".toList, "-ld".toList, "far".toList] []
        = .crashed "-rw-r--r--  1  alice  unknown  42  ".toList
    ∧ (∀ k buf, ls far_world ["my_ls".toList, "-ld".toList, "far".toList] []
        ≠ .returned k buf) := by
  refine ⟨?_, by decide, rfl, rfl, by decide, ?_⟩
  · intro w argv o out hparse hd
    have h := ls_dir_itself w argv o out hparse hd
    refine ⟨?_, ?_, ?_, ?_⟩
    · intro od
      rw [h, ls_dir_itself { w with opendir := od } argv o out hparse hd]
      rfl
    · intro argv' o' hparse' hd' hl' hdir'
      rw [h, ls_dir_itself w argv' o' out hparse' hd', hl', hdir']
    · intro hl errno hs
      rw [h, hl]
      simp [ls_long_dir, hs, my_putstr, my_putchar, Outcome.seq]
    · intro hl
      rw [h, hl]
      simp
  · intro k buf h
    have hc : ls far_world ["my_ls".toList, "-ld".toList, "far".toList] []
        = .crashed "-rw-r--r--  1  alice  unknown  42  ".toList := by decide
    rw [hc] at h
    cases h

/-- The function `ls_long` consults `stat` at the entry name only. -/
theorem ls_long_stat_congr (w : World) (stat' : CString → Except Nat struct_stat)
    (entry : dirent) (out : Out) (h : stat' entry.d_name = w.stat entry.d_name) :
    ls_long { w with stat := stat' } entry out = ls_long w entry out := by
  simp only [ls_long, h]

/-- Folding two step functions that agree on the elements of a list gives the same
result. -/
theorem foldl_congr_mem {σ : Type} (l : List CString) (f g : σ → CString → σ) (s : σ)
    (h : ∀ n ∈ l, ∀ s, f s n = g s n) : l.foldl f s = l.foldl g s := by
  induction l generalizing s with
  | nil => rfl
  | cons a rest ih =>
    simp only [List.foldl_cons]
    rw [h a (List.mem_cons_self _ _) s, ih _ (fun n hn => h n (List.mem_cons_of_mem _ hn))]

/-- C20: in a long listing of a directory that opens, `ls` runs `ls_long` on the bare
rendered names, in order (until the process is killed, if it is), and on nothing else;
replacing `stat` by any function that agrees with it on the bare rendered names changes
nothing, so no other path is looked up; and every directory argument that opens to the
same enumeration gives the same result. -/
theorem C20_stat_on_bare_names (w : World) (argv : List CString) (o : options)
    (entries : List dirent) (out : Out)
    (hparse : parse_options argv ls_locals = o)
    (hl : o.flag_l = true) (hd : o.flag_d = false)
    (hopen : w.opendir o.directory = .ok entries) :
    ls w argv out =
      ((rendered o.flag_a o.flag_A (entries.map dirent.d_name)).foldl
        (fun (s : Outcome Unit) n => s.seq (fun _ buf => ls_long w ⟨n⟩ buf))
        (.returned () out)).seq
        (fun _ buf => .returned 0 buf)
    ∧ (∀ stat' : CString → Except Nat struct_stat,
        (∀ n ∈ rendered o.flag_a o.flag_A (entries.map dirent.d_name), stat' n = w.stat n) →
        ls { w with stat := stat' } argv out = ls w argv out)
    ∧ (∀ (argv' : List CString) (o' : options), parse_options argv' ls_locals = o' →
        o'.flag_l = true → o'.flag_d = false →
        o'.flag_a = o.flag_a → o'.flag_A = o.flag_A →
        w.opendir o'.directory = .ok entries →
        ls w argv' out = ls w argv out) := by
  have h := ls_long_listing w argv o entries out hparse hl hd hopen
  refine ⟨?_, ?_, ?_⟩
  · rw [h]
    rfl
  · intro stat' hagree
    rw [h, ls_long_listing { w with stat := stat' } argv o entries out hparse hl hd hopen]
    congr 1
    apply foldl_congr_mem
    intro n hn s
    cases s with
    | crashed buf => rfl
    | returned v buf =>
      simp only [render_entry, Outcome.seq, if_true]
      exact ls_long_stat_congr w stat' ⟨n⟩ buf (hagree n hn)
  · intro argv' o' hparse' hl' hd' ha hA hopen'
    rw [h, ls_long_listing w argv' o' entries out hparse' hl' hd' hopen', ha, hA]

/-- The scenario of C20: in `two_dir_world` the directory `sub` enumerates `notes.txt`;
`my_ls -l sub` looks up the bare name `notes.txt` (42 bytes), not `sub/notes.txt`
(7 bytes), and so appends the same record as `my_ls -l` on the current directory. -/
theorem C20_stat_on_bare_names_witness :
    parse_options ["my_ls".toList, "-l".toList, "sub".toList] ls_locals
      = { flag_a := false, flag_A := false, flag_l := true, flag_d := false,
          directory := "sub".toList }
    ∧ two_dir_world.opendir "sub".toList = .ok [⟨"notes.txt".toList⟩]
    ∧ ls two_dir_world ["my_ls".toList, "-l".toList, "sub".toList] []
      = .returned 0 "-rw-r--r--  1  alice  unknown  42  May  4 09:42  notes.txt\n".toList
    ∧ ls two_dir_world ["my_ls".toList, "-l".toList] []
      = ls two_dir_world ["my_ls".toList, "-l".toList, "sub".toList] [] := by
  have h := C20_stat_on_bare_names two_dir_world
    ["my_ls".toList, "-l".toList, "sub".toList]
    { flag_a := false, flag_A := false, flag_l := true, flag_d := false,
      directory := "sub".toList }
    [⟨"notes.txt".toList⟩] [] (by decide) rfl rfl rfl
  refine ⟨by decide, rfl, h.1.trans (by decide), ?_⟩
  exact h.2.2 ["my_ls".toList, "-l".toList]
    { flag_a := false, flag_A := false, flag_l := true, flag_d := false,
      directory := ".".toList } (by decide) rfl rfl rfl rfl rfl

end MyLs
